import Mathlib

/-!
Verification development for the ECS solitaire core (entity registry,
component stores, world facade, rule engine, scheduler).

Modelling conventions:
* `f64` coordinates are modelled as rationals; every coordinate
  computation performed by the embedded code (sums and products of
  small integer constants) is exact in binary floating point, so the
  rational model is faithful on the reachable values.
* `usize` and `u8` are modelled as `Nat`, the `i32` z-order as `Int`.
* `HashMap<EntityId, T>` component storage is modelled as a function
  `EntityId → Option T`; `HashSet<EntityId>` as a `Finset ℕ`.
* Fallible operations that mutate the world in place are modelled in a
  state monad `GameM α := World → Except String α × World`, so the
  world reached on an error path is retained, exactly as the in-place
  Rust mutation retains it.
* A Rust `unwrap` on a value that the surrounding branch guarantees to
  be present is modelled by a `match` whose `none` arm returns the
  panic as an error; the arm is unreachable under the guard.
-/

namespace Game

/-- Entity identifier: `pub type EntityId = usize`. -/
abbrev EntityId := Nat

/-- Entity ceiling, `constants.rs`: `pub const MAX_ENTITIES: usize = 1000`. -/
def MAX_ENTITIES : Nat := 1000

/-- Vertical fan-out step for tableau stacks: `STACK_OFFSET_Y = 25.0`. -/
def STACK_OFFSET_Y : ℚ := 25

def CARD_WIDTH : ℚ := 80
def CARD_HEIGHT : ℚ := 120
def CARD_SPACING_X : ℚ := 20
def STOCK_X : ℚ := 100
def STOCK_Y : ℚ := 50
def WASTE_X : ℚ := 200
def WASTE_Y : ℚ := 50
def FOUNDATION_START_X : ℚ := 400
def FOUNDATION_START_Y : ℚ := 50
def TABLEAU_START_X : ℚ := 100
def TABLEAU_START_Y : ℚ := 200

/-- 2D vector (`utils::Vec2`). -/
structure Vec2 where
  x : ℚ
  y : ℚ
deriving DecidableEq

def Vec2.zero : Vec2 := ⟨0, 0⟩

/-- `Transform` component: position, scale, rotation, z-order. -/
structure Transform where
  position : Vec2
  scale : Vec2
  rotation : ℚ
  z_index : Int
deriving DecidableEq

/-- `Transform::new(x, y)`. -/
def Transform.new (x y : ℚ) : Transform :=
  { position := ⟨x, y⟩, scale := ⟨1, 1⟩, rotation := 0, z_index := 0 }

/-- `Transform::with_z_index`. -/
def Transform.with_z_index (t : Transform) (z : Int) : Transform :=
  { t with z_index := z }

/-- `CardInfo` component: suit 0-3, rank 0-12, face-up flag, derived color. -/
structure CardInfo where
  suit : Nat
  rank : Nat
  face_up : Bool
  color : Nat
deriving DecidableEq

/-- `CardInfo::new`: color is 0 (red) for suits 0,1 and 1 (black) otherwise. -/
def CardInfo.new (suit rank : Nat) : CardInfo :=
  { suit := suit, rank := rank, face_up := false,
    color := if suit < 2 then 0 else 1 }

def CardInfo.is_red (c : CardInfo) : Bool := c.color == 0

def CardInfo.is_black (c : CardInfo) : Bool := c.color == 1

/-- `RenderType` draw-kind variant (string payloads kept abstract as `String`). -/
inductive RenderType where
  | Card : RenderType
  | Text (text font color align baseline : String) : RenderType
  | Rectangle (fill_color stroke_color : String) (stroke_width corner_radius : ℚ) : RenderType
  | Custom : RenderType
deriving DecidableEq

/-- `Renderable` component. -/
structure Renderable where
  width : ℚ
  height : ℚ
  visible : Bool
  opacity : ℚ
  render_type : RenderType
deriving DecidableEq

/-- `Renderable::card(width, height)`. -/
def Renderable.card (width height : ℚ) : Renderable :=
  { width := width, height := height, visible := true, opacity := 1,
    render_type := .Card }

/-- `Draggable` component. -/
structure Draggable where
  is_dragging : Bool
  drag_offset : Vec2
  original_position : Vec2
  original_z_index : Int
  width : ℚ
  height : ℚ
  drag_children : Bool
deriving DecidableEq

/-- `Draggable::new()`. -/
def Draggable.new : Draggable :=
  { is_dragging := false, drag_offset := Vec2.zero,
    original_position := Vec2.zero, original_z_index := 0,
    width := 0, height := 0, drag_children := false }

/-- `ClickHandlerType` variant. -/
inductive ClickHandlerType where
  | FlipCard
  | DrawFromStock
  | DrawFromWaste
  | DrawFromTableau (column : Nat)
  | DrawFromFoundation (stack : Nat)
  | Custom
deriving DecidableEq

/-- `Clickable` component. -/
structure Clickable where
  is_hovering : Bool
  was_clicked : Bool
  click_handler : ClickHandlerType
deriving DecidableEq

/-- `Clickable::new(handler)`. -/
def Clickable.new (handler : ClickHandlerType) : Clickable :=
  { is_hovering := false, was_clicked := false, click_handler := handler }

/-- `StackType` variant. -/
inductive StackType where
  | Stock
  | Waste
  | Tableau (column : Nat)
  | Foundation (suit : Nat)
  | Hand
deriving DecidableEq

/-- `StackContainer` component: stack kind plus ordered card id sequence. -/
structure StackContainer where
  stack_type : StackType
  cards : List EntityId
  max_cards : Option Nat
deriving DecidableEq

/-- `StackContainer::new`: foundations cap at 13 cards. -/
def StackContainer.new (t : StackType) : StackContainer :=
  { stack_type := t, cards := [],
    max_cards := match t with
      | .Foundation _ => some 13
      | _ => none }

/-- `StackContainer::add_card`: push on top (end of the sequence). -/
def StackContainer.add_card (s : StackContainer) (card_id : EntityId) : StackContainer :=
  { s with cards := s.cards ++ [card_id] }

/-- `StackContainer::remove_card`: remove the first occurrence, if any. -/
def StackContainer.remove_card (s : StackContainer) (card_id : EntityId) : StackContainer :=
  { s with cards := s.cards.erase card_id }

/-- `StackContainer::remove_top_card`: pop the last element. -/
def StackContainer.remove_top_card (s : StackContainer) : Option EntityId × StackContainer :=
  (s.cards.getLast?, { s with cards := s.cards.dropLast })

/-- `StackContainer::top_card` / `get_top_card`. -/
def StackContainer.get_top_card (s : StackContainer) : Option EntityId :=
  s.cards.getLast?

/-- `StackContainer::get_all_cards`. -/
def StackContainer.get_all_cards (s : StackContainer) : List EntityId :=
  s.cards

/-- `StackContainer::clear_cards`. -/
def StackContainer.clear_cards (s : StackContainer) : StackContainer :=
  { s with cards := [] }

/-- `StackContainer::get_card_index`. -/
def StackContainer.get_card_index (s : StackContainer) (card_id : EntityId) : Option Nat :=
  s.cards.indexOf? card_id

/-- `StackContainer::contains_card`. -/
def StackContainer.contains_card (s : StackContainer) (card_id : EntityId) : Bool :=
  s.cards.contains card_id

/-- `StackContainer::is_empty`. -/
def StackContainer.is_empty (s : StackContainer) : Bool :=
  s.cards.isEmpty

/-- `StackContainer::card_count`. -/
def StackContainer.card_count (s : StackContainer) : Nat :=
  s.cards.length

/-- Entity registry (`EntityManager`): id counter, alive set, pending-removal set. -/
structure EntityManager where
  next_entity_id : EntityId
  active_entities : Finset EntityId
  entities_to_remove : Finset EntityId

/-- `EntityManager::new()`. -/
def EntityManager.new : EntityManager :=
  { next_entity_id := 0, active_entities := ∅, entities_to_remove := ∅ }

/-- `EntityManager::create_entity`: fails at the `MAX_ENTITIES` ceiling,
otherwise issues the next id and inserts it into the alive set.  The
manager is returned unchanged on the error path (in Rust the error is
raised before any mutation). -/
def EntityManager.create_entity (m : EntityManager) :
    Except String EntityId × EntityManager :=
  if m.active_entities.card ≥ MAX_ENTITIES then
    (.error "maximum number of entities reached", m)
  else
    (.ok m.next_entity_id,
      { m with
        next_entity_id := m.next_entity_id + 1,
        active_entities := insert m.next_entity_id m.active_entities })

/-- `EntityManager::mark_entity_for_removal`: only alive ids are queued. -/
def EntityManager.mark_entity_for_removal (m : EntityManager) (id : EntityId) :
    EntityManager :=
  if id ∈ m.active_entities then
    { m with entities_to_remove := insert id m.entities_to_remove }
  else m

/-- `EntityManager::update`: drop the queued ids from the alive set and
clear the queue. -/
def EntityManager.update (m : EntityManager) : EntityManager :=
  { m with
    active_entities := m.active_entities \ m.entities_to_remove,
    entities_to_remove := ∅ }

/-- `EntityManager::is_entity_active`. -/
def EntityManager.is_entity_active (m : EntityManager) (id : EntityId) : Bool :=
  decide (id ∈ m.active_entities)

/-- `EntityManager::entity_count`. -/
def EntityManager.entity_count (m : EntityManager) : Nat :=
  m.active_entities.card

/-- The world: entity manager plus one storage per component kind
(the Rust `ComponentManager` keyed by `TypeId`, flattened to its fixed
kind list), plus the `created_entities` log. -/
structure World where
  em : EntityManager
  transforms : EntityId → Option Transform
  card_infos : EntityId → Option CardInfo
  renderables : EntityId → Option Renderable
  draggables : EntityId → Option Draggable
  clickables : EntityId → Option Clickable
  stackStore : EntityId → Option StackContainer
  created_entities : List EntityId

/-- Point update of a component store (`ComponentStorage::add`, which
overwrites any existing value). -/
def store_set {α : Type} (f : EntityId → Option α) (id : EntityId) (v : α) :
    EntityId → Option α :=
  fun j => if j = id then some v else f j

/-- Point removal from a component store (`ComponentStorage::remove_entity`). -/
def store_erase {α : Type} (f : EntityId → Option α) (id : EntityId) :
    EntityId → Option α :=
  fun j => if j = id then none else f j

/-- `World::new()`. -/
def World.new : World :=
  { em := EntityManager.new,
    transforms := fun _ => none, card_infos := fun _ => none,
    renderables := fun _ => none, draggables := fun _ => none,
    clickables := fun _ => none, stackStore := fun _ => none,
    created_entities := [] }

/-- `World::entity_exists`. -/
def World.entity_exists (w : World) (id : EntityId) : Bool :=
  w.em.is_entity_active id

/-- `World::get_component::<Transform>` (guarded by the alive check). -/
def World.getTransform (w : World) (id : EntityId) : Option Transform :=
  if w.entity_exists id then w.transforms id else none

/-- `World::get_component::<CardInfo>`. -/
def World.getCardInfo (w : World) (id : EntityId) : Option CardInfo :=
  if w.entity_exists id then w.card_infos id else none

/-- `World::get_component::<StackContainer>`. -/
def World.getStack (w : World) (id : EntityId) : Option StackContainer :=
  if w.entity_exists id then w.stackStore id else none

/-- `World::has_component::<Draggable>`. -/
def World.hasDraggable (w : World) (id : EntityId) : Bool :=
  w.entity_exists id && (w.draggables id).isSome

/-- Raw write-back of a `Transform` (the tail of a successful
`get_component_mut` mutation). -/
def World.setTransform (w : World) (id : EntityId) (t : Transform) : World :=
  { w with transforms := store_set w.transforms id t }

def World.setCardInfo (w : World) (id : EntityId) (c : CardInfo) : World :=
  { w with card_infos := store_set w.card_infos id c }

def World.setStack (w : World) (id : EntityId) (s : StackContainer) : World :=
  { w with stackStore := store_set w.stackStore id s }

/-- `World::remove_entity`: mark the id for deferred removal from the
alive set, and remove all of its components immediately
(`component_manager.remove_entity` runs inside `remove_entity`, not in
the housekeeping pass). -/
def World.remove_entity (w : World) (id : EntityId) : World :=
  { w with
    em := w.em.mark_entity_for_removal id,
    transforms := store_erase w.transforms id,
    card_infos := store_erase w.card_infos id,
    renderables := store_erase w.renderables id,
    draggables := store_erase w.draggables id,
    clickables := store_erase w.clickables id,
    stackStore := store_erase w.stackStore id }

/-- `World::update`: the post-tick housekeeping pass. -/
def World.update (w : World) : World :=
  { w with em := w.em.update, created_entities := [] }

/-- `World::entity_count`. -/
def World.entity_count (w : World) : Nat :=
  w.em.entity_count

/-- State monad for in-place world mutation with `Result` propagation:
on an error the world reached so far is kept, as in Rust. -/
def GameM (α : Type) : Type := World → Except String α × World

instance : Monad GameM where
  pure a := fun w => (.ok a, w)
  bind m f := fun w =>
    match m w with
    | (.ok a, w') => f a w'
    | (.error e, w') => (.error e, w')

/-- Read a projection of the world. -/
def getW {α : Type} (f : World → α) : GameM α :=
  fun w => (.ok (f w), w)

/-- Raise an error (`return Err(...)`). -/
def throwE {α : Type} (e : String) : GameM α :=
  fun w => (.error e, w)

/-- `World::create_entity`: delegates to the entity manager and logs the
id in `created_entities`. -/
def create_entity : GameM EntityId :=
  fun w =>
    match w.em.create_entity with
    | (.ok id, em) =>
        (.ok id, { w with em := em, created_entities := w.created_entities ++ [id] })
    | (.error e, em) => (.error e, { w with em := em })

/-- `World::add_component::<Transform>`: errors when the entity is dead. -/
def add_transform (id : EntityId) (t : Transform) : GameM Unit :=
  fun w =>
    if w.entity_exists id then (.ok (), w.setTransform id t)
    else (.error "entity does not exist", w)

def add_card_info (id : EntityId) (c : CardInfo) : GameM Unit :=
  fun w =>
    if w.entity_exists id then (.ok (), w.setCardInfo id c)
    else (.error "entity does not exist", w)

def add_renderable (id : EntityId) (r : Renderable) : GameM Unit :=
  fun w =>
    if w.entity_exists id then
      (.ok (), { w with renderables := store_set w.renderables id r })
    else (.error "entity does not exist", w)

def add_draggable (id : EntityId) (d : Draggable) : GameM Unit :=
  fun w =>
    if w.entity_exists id then
      (.ok (), { w with draggables := store_set w.draggables id d })
    else (.error "entity does not exist", w)

def add_clickable (id : EntityId) (c : Clickable) : GameM Unit :=
  fun w =>
    if w.entity_exists id then
      (.ok (), { w with clickables := store_set w.clickables id c })
    else (.error "entity does not exist", w)

def add_stack (id : EntityId) (s : StackContainer) : GameM Unit :=
  fun w =>
    if w.entity_exists id then (.ok (), w.setStack id s)
    else (.error "entity does not exist", w)

/-- `World::remove_component::<Draggable>` (no-op on a dead entity). -/
def remove_draggable (id : EntityId) : GameM Unit :=
  fun w =>
    if w.entity_exists id then
      (.ok (), { w with draggables := store_erase w.draggables id })
    else (.ok (), w)

/-- `if let Some(stack) = world.get_component_mut::<StackContainer>(id)
{ mutate }` — a silent no-op when the component is absent. -/
def modify_stack (id : EntityId) (f : StackContainer → StackContainer) : GameM Unit :=
  fun w =>
    match w.getStack id with
    | some s => (.ok (), w.setStack id (f s))
    | none => (.ok (), w)

/-- `if let Some(info) = world.get_component_mut::<CardInfo>(id) { mutate }`. -/
def modify_card_info (id : EntityId) (f : CardInfo → CardInfo) : GameM Unit :=
  fun w =>
    match w.getCardInfo id with
    | some c => (.ok (), w.setCardInfo id (f c))
    | none => (.ok (), w)

/-- Raw stack write-back after a successful `get_component_mut` fetch. -/
def setStackM (id : EntityId) (s : StackContainer) : GameM Unit :=
  fun w => (.ok (), w.setStack id s)

/-- `match f(world) { Some(x) => x, None => return Err(msg) }`. -/
def need {α : Type} (msg : String) (f : World → Option α) : GameM α :=
  fun w =>
    match f w with
    | some a => (.ok a, w)
    | none => (.error msg, w)

/-- `card::create_card`: a fresh entity with transform, card info,
renderable, draggable (face-up cards only) and clickable components. -/
def create_card (suit rank : Nat) (x y : ℚ) (face_up : Bool) (z_index : Int) :
    GameM EntityId := do
  let entity_id ← create_entity
  add_transform entity_id ((Transform.new x y).with_z_index z_index)
  add_card_info entity_id { CardInfo.new suit rank with face_up := face_up }
  add_renderable entity_id (Renderable.card CARD_WIDTH CARD_HEIGHT)
  if face_up then
    add_draggable entity_id Draggable.new
  add_clickable entity_id (Clickable.new .FlipCard)
  pure entity_id

/-- `card::flip_card`: toggle the face-up flag; when the card turns
face-up, attach a `Draggable` if it has none. -/
def flip_card (card_id : EntityId) : GameM Unit :=
  fun w =>
    match w.getCardInfo card_id with
    | some card_info =>
        let flipped := { card_info with face_up := !card_info.face_up }
        let w1 := w.setCardInfo card_id flipped
        if flipped.face_up then
          if w1.hasDraggable card_id then (.ok (), w1)
          else add_draggable card_id Draggable.new w1
        else (.ok (), w1)
    | none => (.error "CardInfo component not found", w)

/-- `card::can_stack_card`: different colors and descending rank. -/
def can_stack_card (w : World) (source_card_id target_card_id : EntityId) : Bool :=
  match w.getCardInfo source_card_id, w.getCardInfo target_card_id with
  | some source_card, some target_card =>
      (source_card.color != target_card.color) &&
        (source_card.rank + 1 == target_card.rank)
  | _, _ => false

/-- `card::set_card_position`: errors when the card has no transform. -/
def set_card_position (card_id : EntityId) (x y : ℚ) (z_index : Int) : GameM Unit :=
  fun w =>
    match w.getTransform card_id with
    | some t =>
        (.ok (), w.setTransform card_id { t with position := ⟨x, y⟩, z_index := z_index })
    | none => (.error "Transform component not found", w)

/-- `card::set_card_draggable`. -/
def set_card_draggable (card_id : EntityId) (draggable : Bool) : GameM Unit :=
  fun w =>
    if draggable then
      if w.hasDraggable card_id then (.ok (), w)
      else add_draggable card_id Draggable.new w
    else remove_draggable card_id w

/-- The suit/rank pairs of `create_deck`, in loop order. -/
def create_deck_pairs : List (Nat × Nat) :=
  (List.range 4).flatMap (fun suit => (List.range 13).map (fun rank => (suit, rank)))

def create_deck_loop (x y : ℚ) : List (Nat × Nat) → List EntityId → GameM (List EntityId)
  | [], deck => pure deck
  | (suit, rank) :: rest, deck => do
    let z_index : Int := ((suit * 13 + rank : Nat) : Int)
    let card_id ← create_card suit rank x y false z_index
    create_deck_loop x y rest (deck ++ [card_id])

/-- `card::create_deck`: 52 face-down cards, suits 0-3 and ranks 0-12. -/
def create_deck (x y : ℚ) : GameM (List EntityId) :=
  create_deck_loop x y create_deck_pairs []

/-- `solitaire::can_move_to_foundation`. -/
def can_move_to_foundation (w : World) (card_id foundation_id : EntityId) : Bool :=
  match w.getCardInfo card_id with
  | none => false
  | some card_info =>
    if !card_info.face_up then false
    else
      match w.getStack foundation_id with
      | none => false
      | some foundation =>
        match foundation.stack_type with
        | .Foundation suit =>
          if foundation.is_empty then
            card_info.rank == 0 && card_info.suit == suit
          else
            match foundation.get_top_card with
            | none => false
            | some top_card_id =>
              match w.getCardInfo top_card_id with
              | none => false
              | some top_card_info =>
                card_info.suit == suit && card_info.rank == top_card_info.rank + 1
        | _ => false

/-- `solitaire::can_move_to_tableau`. -/
def can_move_to_tableau (w : World) (card_id tableau_id : EntityId) : Bool :=
  match w.getCardInfo card_id with
  | none => false
  | some card_info =>
    if !card_info.face_up then false
    else
      match w.getStack tableau_id with
      | none => false
      | some tableau =>
        match tableau.stack_type with
        | .Tableau _ =>
          if tableau.is_empty then
            card_info.rank == 12
          else
            match tableau.get_top_card with
            | none => false
            | some top_card_id => can_stack_card w card_id top_card_id
        | _ => false

/-- The shared tail of `move_card` and `move_card_stack`: when the source
stack is a tableau whose new top card is face-down, flip it face-up. -/
def flip_top_if_tableau (from_stack_id : EntityId) : GameM Unit := do
  let from_stack ← need "source stack not found" (fun w => w.getStack from_stack_id)
  match from_stack.stack_type with
  | .Tableau _ =>
    if !from_stack.is_empty then
      match from_stack.get_top_card with
      | none => throwE "unwrap failed: empty stack has no top card"
      | some top_card_id => do
        let infoOpt ← getW (fun w => w.getCardInfo top_card_id)
        match infoOpt with
        | some card_info =>
          if !card_info.face_up then flip_card top_card_id
          else pure ()
        | none => pure ()
    else pure ()
  | _ => pure ()

/-- `solitaire::move_card`: single-card move.  Returns `false` when the
card is not in the source stack; otherwise removes it there, places it
at the destination anchor with z-order equal to the destination's prior
card count, appends it to the destination sequence, and reveals the
source tableau's new top card. -/
def move_card (card_id from_stack_id to_stack_id : EntityId) : GameM Bool := do
  let from_stack ← need "source stack not found" (fun w => w.getStack from_stack_id)
  if !(from_stack.contains_card card_id) then
    pure false
  else do
    let transform ← need "destination transform not found"
      (fun w => w.getTransform to_stack_id)
    let to_stack ← need "destination stack not found" (fun w => w.getStack to_stack_id)
    let to_x := transform.position.x
    let to_y := transform.position.y
    let to_z_index : Int := (to_stack.card_count : Int)
    let fs ← need "source stack not found" (fun w => w.getStack from_stack_id)
    setStackM from_stack_id (fs.remove_card card_id)
    set_card_position card_id to_x to_y to_z_index
    let ts ← need "destination stack not found" (fun w => w.getStack to_stack_id)
    setStackM to_stack_id (ts.add_card card_id)
    flip_top_if_tableau from_stack_id
    pure true

/-- The per-card loop of `reset_stock_from_waste`: face each card down
and place it on the stock anchor with z-order `i`. -/
def reset_cards_loop (stock_x stock_y : ℚ) : List EntityId → Nat → GameM Unit
  | [], _ => pure ()
  | card_id :: rest, i => do
    modify_card_info card_id (fun info => { info with face_up := false })
    set_card_position card_id stock_x stock_y (i : Int)
    reset_cards_loop stock_x stock_y rest (i + 1)

/-- `solitaire::reset_stock_from_waste`: no-op returning `false` on an
empty waste; otherwise drains the waste, faces every card down, and
appends them to the stock in the order they sat in the waste. -/
def reset_stock_from_waste (stock_id waste_id : EntityId) : GameM Bool := do
  let waste ← need "waste stack not found" (fun w => w.getStack waste_id)
  if waste.is_empty then
    pure false
  else do
    let waste_cards := waste.get_all_cards
    setStackM waste_id waste.clear_cards
    let t ← need "stock transform not found" (fun w => w.getTransform stock_id)
    reset_cards_loop t.position.x t.position.y waste_cards 0
    modify_stack stock_id (fun stock => waste_cards.foldl StackContainer.add_card stock)
    pure true

/-- `solitaire::draw_from_stock`: recycle when the stock is empty, else
pop the stock's top card, flip it face-up, make it draggable and append
it to the waste. -/
def draw_from_stock (stock_id waste_id : EntityId) : GameM Bool := do
  let stock ← need "stock not found" (fun w => w.getStack stock_id)
  if stock.is_empty then
    reset_stock_from_waste stock_id waste_id
  else do
    let stock2 ← need "stock not found" (fun w => w.getStack stock_id)
    if stock2.is_empty then
      pure false
    else
      match stock2.remove_top_card with
      | (none, _) => throwE "failed to take a card"
      | (some card_id, stock3) => do
        setStackM stock_id stock3
        let wt ← need "waste transform not found" (fun w => w.getTransform waste_id)
        let waste ← need "waste not found" (fun w => w.getStack waste_id)
        let waste_z_index : Int := (waste.card_count : Int)
        set_card_position card_id wt.position.x wt.position.y waste_z_index
        flip_card card_id
        set_card_draggable card_id true
        modify_stack waste_id (fun ws => ws.add_card card_id)
        pure true

/-- The inner foundation scan of `auto_complete` (`break` on first hit). -/
def try_move_to_foundations (card_id from_id : EntityId) :
    List EntityId → GameM Bool
  | [] => pure false
  | foundation_id :: rest => do
    let can ← getW (fun w => can_move_to_foundation w card_id foundation_id)
    if can then do
      let _ ← move_card card_id from_id foundation_id
      pure true
    else
      try_move_to_foundations card_id from_id rest

/-- The tableau pass of `auto_complete`. -/
def auto_complete_tableaus (foundation_ids : List EntityId) :
    List EntityId → Bool → GameM Bool
  | [], moved => pure moved
  | tableau_id :: rest, moved => do
    let tabOpt ← getW (fun w => w.getStack tableau_id)
    match tabOpt with
    | none => auto_complete_tableaus foundation_ids rest moved
    | some tableau =>
      if tableau.is_empty then
        auto_complete_tableaus foundation_ids rest moved
      else
        match tableau.get_top_card with
        | none => throwE "unwrap failed: empty stack has no top card"
        | some top_card_id => do
          let b ← try_move_to_foundations top_card_id tableau_id foundation_ids
          auto_complete_tableaus foundation_ids rest (moved || b)

/-- The waste pass of `auto_complete`. -/
def auto_complete_waste (foundation_ids : List EntityId) (waste_id : EntityId) :
    GameM Bool := do
  let wasteOpt ← getW (fun w => w.getStack waste_id)
  match wasteOpt with
  | none => pure false
  | some waste =>
    if !waste.is_empty then
      match waste.get_top_card with
      | none => throwE "unwrap failed: empty stack has no top card"
      | some top_card_id =>
        try_move_to_foundations top_card_id waste_id foundation_ids
    else pure false

/-- `solitaire::auto_complete`: one greedy pass over tableau tops and
the waste top; reports whether any card moved. -/
def auto_complete (tableau_ids foundation_ids : List EntityId)
    (waste_id : EntityId) : GameM Bool := do
  let moved1 ← auto_complete_tableaus foundation_ids tableau_ids false
  let moved2 ← auto_complete_waste foundation_ids waste_id
  pure (moved1 || moved2)

/-- The per-card vertical offset of `move_card_stack`: `i * STACK_OFFSET_Y`
for a tableau destination, 0 otherwise. -/
def tableau_y_offset (to_stack_type : StackType) (i : Nat) : ℚ :=
  match to_stack_type with
  | .Tableau _ => (i : ℚ) * STACK_OFFSET_Y
  | _ => 0

/-- The position loop of `move_card_stack`: the i-th moved card lands at
the destination anchor, offset vertically by `i * STACK_OFFSET_Y` for a
tableau destination, with z-order `current_card_count + i`. -/
def position_cards_loop (base_x base_y : ℚ) (current_card_count : Nat)
    (to_stack_type : StackType) : List EntityId → Nat → GameM Unit
  | [], _ => pure ()
  | card :: rest, i => do
    let z_index : Int := ((current_card_count + i : Nat) : Int)
    let y_offset : ℚ := tableau_y_offset to_stack_type i
    set_card_position card base_x (base_y + y_offset) z_index
    position_cards_loop base_x base_y current_card_count to_stack_type rest (i + 1)

/-- The destination-legality block of `move_card_stack` (the `can_move`
match in the source).  The `none` arms on `head?`/`get_top_card` mirror
Rust panics on branches the guards make unreachable. -/
def can_move_stack_check (w : World) (from_cards : List EntityId)
    (from_stack_type : StackType) (to_stack : StackContainer)
    (to_stack_id : EntityId) : Bool :=
  match from_cards.head? with
  | none => false
  | some first_card =>
    match from_stack_type, to_stack.stack_type with
    | .Tableau _, .Tableau _ =>
      if to_stack.is_empty then
        match w.getCardInfo first_card with
        | some card_info => card_info.rank == 12
        | none => false
      else
        match to_stack.get_top_card with
        | some top_card_id => can_stack_card w first_card top_card_id
        | none => false
    | _, .Foundation _ =>
      if from_cards.length > 1 then false
      else can_move_to_foundation w first_card to_stack_id
    | _, _ =>
      from_cards.length == 1 && can_move_to_tableau w first_card to_stack_id

/-- `solitaire::move_card_stack`: run move from `card_id` to the end of
the source sequence. -/
def move_card_stack (card_id from_stack_id to_stack_id : EntityId) : GameM Bool := do
  let from_stack ← need "source stack not found" (fun w => w.getStack from_stack_id)
  if !(from_stack.contains_card card_id) then
    pure false
  else
    match from_stack.get_card_index card_id with
    | none => throwE "unwrap failed: card index not found"
    | some card_index => do
      let from_stack_type := from_stack.stack_type
      let from_cards := (from_stack.get_all_cards).drop card_index
      let to_stack ← need "destination stack not found" (fun w => w.getStack to_stack_id)
      let to_stack_type := to_stack.stack_type
      let can_move_stack ← getW (fun w =>
        can_move_stack_check w from_cards from_stack_type to_stack to_stack_id)
      if !can_move_stack then
        pure false
      else do
        let fs ← need "source stack not found" (fun w => w.getStack from_stack_id)
        setStackM from_stack_id (from_cards.foldl StackContainer.remove_card fs)
        let transform ← need "destination transform not found"
          (fun w => w.getTransform to_stack_id)
        let to_stack2 ← need "destination stack not found"
          (fun w => w.getStack to_stack_id)
        position_cards_loop transform.position.x transform.position.y
          to_stack2.card_count to_stack_type from_cards 0
        let ts ← need "destination stack not found" (fun w => w.getStack to_stack_id)
        setStackM to_stack_id (from_cards.foldl StackContainer.add_card ts)
        flip_top_if_tableau from_stack_id
        pure true

/-- `solitaire::create_stock` (the `cards` argument is unused in the
source as well: the stock starts out empty). -/
def create_stock (_cards : List EntityId) : GameM EntityId := do
  let stock_id ← create_entity
  add_transform stock_id (Transform.new STOCK_X STOCK_Y)
  add_stack stock_id (StackContainer.new .Stock)
  add_clickable stock_id (Clickable.new .DrawFromStock)
  pure stock_id

/-- `solitaire::create_waste`. -/
def create_waste : GameM EntityId := do
  let waste_id ← create_entity
  add_transform waste_id (Transform.new WASTE_X WASTE_Y)
  add_stack waste_id (StackContainer.new .Waste)
  add_clickable waste_id (Clickable.new .DrawFromWaste)
  pure waste_id

def create_tableau_loop : List Nat → List EntityId → GameM (List EntityId)
  | [], acc => pure acc
  | i :: rest, acc => do
    let tableau_id ← create_entity
    let x := TABLEAU_START_X + (i : ℚ) * CARD_SPACING_X * (1.5 : ℚ)
    add_transform tableau_id (Transform.new x TABLEAU_START_Y)
    add_stack tableau_id (StackContainer.new (.Tableau i))
    add_clickable tableau_id (Clickable.new (.DrawFromTableau i))
    create_tableau_loop rest (acc ++ [tableau_id])

/-- `solitaire::create_tableau`: seven empty columns. -/
def create_tableau : GameM (List EntityId) :=
  create_tableau_loop (List.range 7) []

def create_foundations_loop : List Nat → List EntityId → GameM (List EntityId)
  | [], acc => pure acc
  | i :: rest, acc => do
    let foundation_id ← create_entity
    let x := FOUNDATION_START_X + (i : ℚ) * CARD_SPACING_X * (1.5 : ℚ)
    add_transform foundation_id (Transform.new x FOUNDATION_START_Y)
    add_stack foundation_id (StackContainer.new (.Foundation i))
    add_clickable foundation_id (Clickable.new (.DrawFromFoundation i))
    create_foundations_loop rest (acc ++ [foundation_id])

/-- `solitaire::create_foundations`: four empty foundations. -/
def create_foundations : GameM (List EntityId) :=
  create_foundations_loop (List.range 4) []

/-- The inner card loop of `deal_cards_to_tableau` for one column
(`break` when the deck is exhausted; the deck is popped from its end). -/
def deal_column_loop (base_x base_y : ℚ) (num_cards : Nat) :
    Nat → Nat → List EntityId → List EntityId → GameM (List EntityId × List EntityId)
  | _, 0, deck, acc => pure (deck, acc)
  | j, rem + 1, deck, acc =>
    match deck.getLast? with
    | none => pure (deck, acc)
    | some card_id => do
      set_card_position card_id base_x (base_y + (j : ℚ) * STACK_OFFSET_Y) (j : Int)
      if j == num_cards - 1 then do
        flip_card card_id
        let infoOpt ← getW (fun w => w.getCardInfo card_id)
        match infoOpt with
        | some card_info =>
          if card_info.face_up then set_card_draggable card_id true
          else pure ()
        | none => pure ()
      else pure ()
      deal_column_loop base_x base_y num_cards (j + 1) rem deck.dropLast (acc ++ [card_id])

/-- The per-column loop of `deal_cards_to_tableau`: column `i` gets
`i + 1` cards, and the collected cards are appended to the column's
stack at the end. -/
def deal_columns : List (Nat × EntityId) → List EntityId → GameM (List EntityId)
  | [], deck => pure deck
  | (i, tableau_id) :: rest, deck => do
    let num_cards := i + 1
    let t ← need "tableau transform not found" (fun w => w.getTransform tableau_id)
    let out ← deal_column_loop t.position.x t.position.y num_cards 0 num_cards deck []
    modify_stack tableau_id (fun tab => out.2.foldl StackContainer.add_card tab)
    deal_columns rest out.1

/-- `solitaire::deal_cards_to_tableau`; returns the remaining deck. -/
def deal_cards_to_tableau (deck : List EntityId) (tableau_ids : List EntityId) :
    GameM (List EntityId) :=
  deal_columns tableau_ids.enum deck

def stock_cards_loop (x y : ℚ) : List EntityId → Nat → GameM Unit
  | [], _ => pure ()
  | card_id :: rest, i => do
    set_card_position card_id x y (i : Int)
    stock_cards_loop x y rest (i + 1)

/-- `solitaire::add_cards_to_stock`. -/
def add_cards_to_stock (stock_id : EntityId) (cards : List EntityId) : GameM Unit := do
  let t ← need "stock transform not found" (fun w => w.getTransform stock_id)
  stock_cards_loop t.position.x t.position.y cards 0
  modify_stack stock_id (fun stock => cards.foldl StackContainer.add_card stock)

/-- `solitaire::setup_solitaire_board`, parameterized by the shuffle
(`shuffle_deck` permutes the deck with a thread-local RNG). -/
def setup_solitaire_board (shuffle : List EntityId → List EntityId) : GameM Unit := do
  let deck0 ← create_deck STOCK_X STOCK_Y
  let deck := shuffle deck0
  let stock_id ← create_stock deck
  let _waste_id ← create_waste
  let tableau_ids ← create_tableau
  let deck2 ← deal_cards_to_tableau deck tableau_ids
  let _foundation_ids ← create_foundations
  add_cards_to_stock stock_id deck2
  pure ()

/-- `SystemPhase` (derived `Ord` in Rust orders by declaration). -/
inductive SystemPhase where
  | Input
  | PreUpdate
  | Update
  | PostUpdate
  | Render
deriving DecidableEq

/-- Declaration index of a phase, the order the derived `Ord` uses. -/
def SystemPhase.idx : SystemPhase → Nat
  | .Input => 0
  | .PreUpdate => 1
  | .Update => 2
  | .PostUpdate => 3
  | .Render => 4

/-- One registered system: phase, priority and its update routine,
abstracted over the state it mutates (world, resources, delta). -/
structure SystemEntry (σ : Type) where
  phase : SystemPhase
  priority : Int
  run : σ → Except String σ

/-- The sort order of `run_systems`: phase first, then priority (lower
value first).  This is `comparator(a, b) != Greater` for the Rust
comparator. -/
def system_le {σ : Type} (a b : SystemEntry σ) : Bool :=
  decide (a.phase.idx < b.phase.idx) ||
    (a.phase.idx == b.phase.idx && decide (a.priority ≤ b.priority))

/-- The stable sort `self.systems.sort_by(...)` (Rust's `sort_by` is a
stable merge sort), on registration-indexed entries. -/
def sort_systems {σ : Type} (systems : List (Nat × SystemEntry σ)) :
    List (Nat × SystemEntry σ) :=
  systems.mergeSort (fun a b => system_le a.2 b.2)

/-- Sequential execution of the sorted list, stopping at the first
error (`system.run(...)?`). The first output component is the trace of
registration indices actually executed. -/
def run_systems_list {σ : Type} : σ → List (Nat × SystemEntry σ) → List Nat × Except String σ
  | s, [] => ([], .ok s)
  | s, (i, sys) :: rest =>
    match sys.run s with
    | .ok s2 =>
        let out := run_systems_list s2 rest
        (i :: out.1, out.2)
    | .error e => ([i], .error e)

/-- `SystemManager::run_systems`: sort by (phase, priority), then run
each system once in order, propagating the first error. -/
def run_systems {σ : Type} (systems : List (SystemEntry σ)) (s : σ) :
    List Nat × Except String σ :=
  run_systems_list s (sort_systems systems.enum)

/-- Error-free sequential execution of a list of systems (used to state
what has happened before a failing system). -/
def run_systems_all {σ : Type} : σ → List (Nat × SystemEntry σ) → Except String σ
  | s, [] => .ok s
  | s, (_, sys) :: rest =>
    match sys.run s with
    | .ok s2 => run_systems_all s2 rest
    | .error e => .error e

/-- Exclusive stack membership (spec §3): a card id occurs in the card
sequence of at most one stored `StackContainer`, and at most once
within that sequence. -/
def ExclusiveMembership (w : World) : Prop :=
  (∀ s1 s2 k1 k2 c, w.stackStore s1 = some k1 → w.stackStore s2 = some k2 →
      c ∈ k1.cards → c ∈ k2.cards → s1 = s2) ∧
  (∀ s k, w.stackStore s = some k → k.cards.Nodup)

/-- Every card id referenced by a stored stack has already been issued
by the entity registry (a consequence of the spec §3 invariant that
stack members are alive, since alive ids are always below the id
counter). -/
def StackRefsIssued (w : World) : Prop :=
  ∀ s k c, w.stackStore s = some k → c ∈ k.cards → c < w.em.next_entity_id

/-- `c` occurs in no stored stack sequence. -/
def NotInAnyStack (w : World) (c : EntityId) : Prop :=
  ∀ s k, w.stackStore s = some k → c ∉ k.cards

/-- An operation that never changes the stack store. -/
def PreservesStacks {α : Type} (m : GameM α) : Prop :=
  ∀ w, ((m w).2).stackStore = w.stackStore

/-- An operation that never decreases the entity id counter. -/
def MonoNextId {α : Type} (m : GameM α) : Prop :=
  ∀ w, w.em.next_entity_id ≤ ((m w).2).em.next_entity_id

/-- No card of `deck` occurs in any stored stack sequence. -/
def DeckDisjoint (deck : List EntityId) (w : World) : Prop :=
  ∀ s k c, w.stackStore s = some k → c ∈ k.cards → c ∉ deck

/-- A small concrete board used by witnesses and counterexamples:
entity 1 is a tableau column holding card 4 (face-up ♠5 on top),
entity 7 an empty tableau, entity 10 an empty foundation for suit 0,
entity 11 the waste holding cards 3 (face-up ♥4) and 13 (face-up ♥A),
entity 12 an empty stock, entity 2 a face-down ♠K, entity 8 a face-up
♦K, entity 14 a face-down ♥A. -/
def wTab : World :=
  { em :=
      { next_entity_id := 20,
        active_entities := {1, 2, 3, 4, 7, 8, 10, 11, 12, 13, 14},
        entities_to_remove := ∅ },
    transforms := fun j =>
      if j = 1 then some (Transform.new 100 200)
      else if j = 7 then some (Transform.new 130 200)
      else if j = 10 then some (Transform.new 400 50)
      else if j = 11 then some (Transform.new 200 50)
      else if j = 12 then some (Transform.new 100 50)
      else if j = 2 then some (Transform.new 0 0)
      else if j = 3 then some (Transform.new 5 5)
      else if j = 4 then some (Transform.new 100 200)
      else if j = 13 then some (Transform.new 6 6)
      else if j = 14 then some (Transform.new 7 7)
      else none,
    card_infos := fun j =>
      if j = 2 then some ⟨3, 12, false, 1⟩
      else if j = 3 then some ⟨0, 3, true, 0⟩
      else if j = 4 then some ⟨3, 4, true, 1⟩
      else if j = 8 then some ⟨1, 12, true, 0⟩
      else if j = 13 then some ⟨0, 0, true, 0⟩
      else if j = 14 then some ⟨0, 0, false, 0⟩
      else none,
    renderables := fun _ => none,
    draggables := fun _ => none,
    clickables := fun _ => none,
    stackStore := fun j =>
      if j = 1 then some { stack_type := .Tableau 0, cards := [4], max_cards := none }
      else if j = 7 then some { stack_type := .Tableau 1, cards := [], max_cards := none }
      else if j = 10 then some { stack_type := .Foundation 0, cards := [], max_cards := some 13 }
      else if j = 11 then some { stack_type := .Waste, cards := [3, 13], max_cards := none }
      else if j = 12 then some { stack_type := .Stock, cards := [], max_cards := none }
      else none,
    created_entities := [] }

/-- A minimal world for the invariant witness: a stock holding card 2
and an empty waste. -/
def wInv : World :=
  { em :=
      { next_entity_id := 3,
        active_entities := {0, 1, 2},
        entities_to_remove := ∅ },
    transforms := fun j =>
      if j = 0 then some (Transform.new 100 50)
      else if j = 1 then some (Transform.new 200 50)
      else if j = 2 then some (Transform.new 100 50)
      else none,
    card_infos := fun j =>
      if j = 2 then some ⟨0, 0, false, 0⟩ else none,
    renderables := fun _ => none,
    draggables := fun _ => none,
    clickables := fun _ => none,
    stackStore := fun j =>
      if j = 0 then some { stack_type := .Stock, cards := [2], max_cards := none }
      else if j = 1 then some { stack_type := .Waste, cards := [], max_cards := none }
      else none,
    created_entities := [] }

/-- A world with one alive entity carrying components, for the deferred
deletion claim. -/
def wDel : World :=
  { em :=
      { next_entity_id := 1,
        active_entities := {0},
        entities_to_remove := ∅ },
    transforms := fun j => if j = 0 then some (Transform.new 1 2) else none,
    card_infos := fun j => if j = 0 then some ⟨0, 5, true, 0⟩ else none,
    renderables := fun _ => none,
    draggables := fun _ => none,
    clickables := fun _ => none,
    stackStore := fun _ => none,
    created_entities := [] }

/-- An entity manager at the capacity ceiling. -/
def mFull : EntityManager :=
  { next_entity_id := 1000,
    active_entities := Finset.range 1000,
    entities_to_remove := ∅ }

/-- A tiny concrete scheduler over `Nat` state used by the scheduler
witness: two systems in reversed priority order plus a failing one. -/
def sysA : SystemEntry Nat :=
  { phase := .Update, priority := 1, run := fun n => .ok (n + 1) }

def sysB : SystemEntry Nat :=
  { phase := .Update, priority := 0, run := fun n => .ok (n * 2) }

def sysC : SystemEntry Nat :=
  { phase := .Render, priority := 5, run := fun _ => .error "boom" }

end Game

/-! Theorems.  First, unfolding equations for the state monad and the
component stores, then the claim theorems. -/

namespace Game

theorem GameM_bind_eq {α β : Type} (m : GameM α) (f : α → GameM β) (w : World) :
    (m >>= f) w =
      match m w with
      | (.ok a, w2) => f a w2
      | (.error e, w2) => (.error e, w2) := rfl

theorem GameM_pure_eq {α : Type} (a : α) (w : World) :
    (pure a : GameM α) w = (.ok a, w) := rfl

@[simp] theorem entity_exists_setStack (w : World) (i : EntityId) (s : StackContainer)
    (j : EntityId) : (w.setStack i s).entity_exists j = w.entity_exists j := rfl

@[simp] theorem entity_exists_setTransform (w : World) (i : EntityId) (t : Transform)
    (j : EntityId) : (w.setTransform i t).entity_exists j = w.entity_exists j := rfl

@[simp] theorem entity_exists_setCardInfo (w : World) (i : EntityId) (c : CardInfo)
    (j : EntityId) : (w.setCardInfo i c).entity_exists j = w.entity_exists j := rfl

@[simp] theorem getTransform_setStack (w : World) (i : EntityId) (s : StackContainer)
    (j : EntityId) : (w.setStack i s).getTransform j = w.getTransform j := rfl

@[simp] theorem getCardInfo_setStack (w : World) (i : EntityId) (s : StackContainer)
    (j : EntityId) : (w.setStack i s).getCardInfo j = w.getCardInfo j := rfl

@[simp] theorem getStack_setTransform (w : World) (i : EntityId) (t : Transform)
    (j : EntityId) : (w.setTransform i t).getStack j = w.getStack j := rfl

@[simp] theorem getCardInfo_setTransform (w : World) (i : EntityId) (t : Transform)
    (j : EntityId) : (w.setTransform i t).getCardInfo j = w.getCardInfo j := rfl

@[simp] theorem getStack_setCardInfo (w : World) (i : EntityId) (c : CardInfo)
    (j : EntityId) : (w.setCardInfo i c).getStack j = w.getStack j := rfl

@[simp] theorem getTransform_setCardInfo (w : World) (i : EntityId) (c : CardInfo)
    (j : EntityId) : (w.setCardInfo i c).getTransform j = w.getTransform j := rfl

@[simp] theorem stackStore_setTransform (w : World) (i : EntityId) (t : Transform) :
    (w.setTransform i t).stackStore = w.stackStore := rfl

@[simp] theorem stackStore_setCardInfo (w : World) (i : EntityId) (c : CardInfo) :
    (w.setCardInfo i c).stackStore = w.stackStore := rfl

@[simp] theorem em_setStack (w : World) (i : EntityId) (s : StackContainer) :
    (w.setStack i s).em = w.em := rfl

@[simp] theorem em_setTransform (w : World) (i : EntityId) (t : Transform) :
    (w.setTransform i t).em = w.em := rfl

@[simp] theorem em_setCardInfo (w : World) (i : EntityId) (c : CardInfo) :
    (w.setCardInfo i c).em = w.em := rfl

@[simp] theorem stackStore_setStack (w : World) (i : EntityId) (s : StackContainer) :
    (w.setStack i s).stackStore = store_set w.stackStore i s := rfl

theorem store_set_self {α : Type} (f : EntityId → Option α) (i : EntityId) (v : α) :
    store_set f i v i = some v := by simp [store_set]

theorem store_set_ne {α : Type} (f : EntityId → Option α) (i : EntityId) (v : α)
    (j : EntityId) (h : j ≠ i) : store_set f i v j = f j := by simp [store_set, h]

theorem getStack_setStack_self (w : World) (i : EntityId) (s : StackContainer)
    (h : w.entity_exists i = true) : (w.setStack i s).getStack i = some s := by
  simp [World.getStack, World.setStack, World.entity_exists] at h ⊢
  simp [h, store_set]

theorem getStack_setStack_ne (w : World) (i : EntityId) (s : StackContainer)
    (j : EntityId) (h : j ≠ i) : (w.setStack i s).getStack j = w.getStack j := by
  simp [World.getStack, World.setStack, store_set, h, World.entity_exists,
    EntityManager.is_entity_active]

theorem getTransform_setTransform_ne (w : World) (i : EntityId) (t : Transform)
    (j : EntityId) (h : j ≠ i) : (w.setTransform i t).getTransform j = w.getTransform j := by
  simp [World.getTransform, World.setTransform, store_set, h, World.entity_exists,
    EntityManager.is_entity_active]

theorem getCardInfo_setCardInfo_ne (w : World) (i : EntityId) (c : CardInfo)
    (j : EntityId) (h : j ≠ i) : (w.setCardInfo i c).getCardInfo j = w.getCardInfo j := by
  simp [World.getCardInfo, World.setCardInfo, store_set, h, World.entity_exists,
    EntityManager.is_entity_active]

/-- `getStack` pins down the raw store entry. -/
theorem stackStore_of_getStack {w : World} {i : EntityId} {s : StackContainer}
    (h : w.getStack i = some s) : w.stackStore i = some s := by
  unfold World.getStack at h
  by_cases he : w.entity_exists i = true
  · simpa [he] using h
  · simp [Bool.not_eq_true] at he
    simp [he] at h

theorem entity_exists_of_getStack {w : World} {i : EntityId} {s : StackContainer}
    (h : w.getStack i = some s) : w.entity_exists i = true := by
  unfold World.getStack at h
  by_cases he : w.entity_exists i = true
  · exact he
  · simp [Bool.not_eq_true] at he
    simp [he] at h

/-- C7: when the card is not in the source stack's sequence, `move_card`
returns `Ok(false)` and leaves the world completely unchanged. -/
theorem move_card_missing_card_is_noop
    (w : World) (card_id from_stack_id to_stack_id : EntityId) (fs : StackContainer)
    (h1 : w.getStack from_stack_id = some fs)
    (h2 : fs.contains_card card_id = false) :
    move_card card_id from_stack_id to_stack_id w = (.ok false, w) := by
  unfold move_card
  rw [GameM_bind_eq]
  simp only [need, h1]
  simp [h2, GameM_pure_eq]

/-- Witness for C7: moving card 3 out of the empty stock is a no-op. -/
theorem move_card_missing_card_witness :
    wTab.getStack 12 = some ⟨.Stock, [], none⟩ ∧
    StackContainer.contains_card ⟨.Stock, [], none⟩ 3 = false ∧
    move_card 3 12 7 wTab = (.ok false, wTab) :=
  ⟨by decide, by decide,
    move_card_missing_card_is_noop wTab 3 12 7 ⟨.Stock, [], none⟩ (by decide) (by decide)⟩

/-- C10: a face-down card is rejected by both placement predicates, for
every destination. -/
theorem face_down_card_never_placeable
    (w : World) (card_id dest_id : EntityId) (info : CardInfo)
    (hc : w.getCardInfo card_id = some info) (hfd : info.face_up = false) :
    can_move_to_foundation w card_id dest_id = false ∧
    can_move_to_tableau w card_id dest_id = false := by
  unfold can_move_to_foundation can_move_to_tableau
  simp [hc, hfd]

/-- Witness for C10: the face-down ♠K (entity 2) can go neither onto the
foundation (10) nor onto the empty tableau it would otherwise fit (7). -/
theorem face_down_card_never_placeable_witness :
    wTab.getCardInfo 2 = some ⟨3, 12, false, 1⟩ ∧
    (⟨3, 12, false, 1⟩ : CardInfo).face_up = false ∧
    (can_move_to_foundation wTab 2 10 = false ∧ can_move_to_tableau wTab 2 10 = false) :=
  ⟨by decide, by decide,
    face_down_card_never_placeable wTab 2 10 ⟨3, 12, false, 1⟩ (by decide) (by decide)⟩

/-- Counterexample to C1 as stated: the tableau at entity 7 is empty and
card 2 has rank 12, so the claimed equivalence demands acceptance, but
`can_move_to_tableau` rejects the card because it is face-down. -/
theorem tableau_acceptance_claim_counterexample :
    wTab.getStack 7 = some ⟨.Tableau 1, [], none⟩ ∧
    wTab.getCardInfo 2 = some ⟨3, 12, false, 1⟩ ∧
    can_move_to_tableau wTab 2 7 = false := by decide

/-- C1 (amended): for a card with `CardInfo` and a tableau-typed stack,
`can_move_to_tableau` accepts exactly the face-up cards that are kings
on an empty tableau, or differ in color from the top card and sit one
rank below it; `can_stack_card` is the color/rank comparison alone. -/
theorem tableau_acceptance_characterization
    (w : World) (card_id tableau_id : EntityId) (info : CardInfo)
    (tab : StackContainer) (col : Nat)
    (hc : w.getCardInfo card_id = some info)
    (ht : w.getStack tableau_id = some tab)
    (hty : tab.stack_type = .Tableau col) :
    (tab.cards = [] →
      can_move_to_tableau w card_id tableau_id = (info.face_up && (info.rank == 12))) ∧
    (∀ top_id top_info, tab.get_top_card = some top_id →
      w.getCardInfo top_id = some top_info →
      (can_move_to_tableau w card_id tableau_id =
        (info.face_up &&
          ((info.color != top_info.color) && (info.rank + 1 == top_info.rank))) ∧
       can_stack_card w card_id top_id =
        ((info.color != top_info.color) && (info.rank + 1 == top_info.rank)))) := by
  constructor
  · intro hempty
    unfold can_move_to_tableau
    simp [hc, ht, hty, StackContainer.is_empty, hempty]
  · intro top_id top_info htop hcTop
    have hne : tab.cards ≠ [] := by
      intro habs
      rw [StackContainer.get_top_card, habs] at htop
      simp at htop
    constructor
    · unfold can_move_to_tableau
      simp only [hc, ht, hty]
      simp [StackContainer.is_empty, List.isEmpty_iff, hne, htop,
        can_stack_card, hcTop, hc]
    · unfold can_stack_card
      simp [hc, hcTop]

/-- Witness for C1: the face-up red 4 (entity 3) onto the tableau whose
top is the face-up ♠5 (entity 4). -/
theorem tableau_acceptance_witness :
    wTab.getCardInfo 3 = some ⟨0, 3, true, 0⟩ ∧
    wTab.getStack 1 = some ⟨.Tableau 0, [4], none⟩ ∧
    (StackContainer.stack_type ⟨.Tableau 0, [4], none⟩ = .Tableau 0) ∧
    (((⟨.Tableau 0, [4], none⟩ : StackContainer).cards = [] →
      can_move_to_tableau wTab 3 1 =
        ((⟨0, 3, true, 0⟩ : CardInfo).face_up && ((⟨0, 3, true, 0⟩ : CardInfo).rank == 12))) ∧
     (∀ top_id top_info, (⟨.Tableau 0, [4], none⟩ : StackContainer).get_top_card = some top_id →
      wTab.getCardInfo top_id = some top_info →
      (can_move_to_tableau wTab 3 1 =
        ((⟨0, 3, true, 0⟩ : CardInfo).face_up &&
          (((⟨0, 3, true, 0⟩ : CardInfo).color != top_info.color) &&
            ((⟨0, 3, true, 0⟩ : CardInfo).rank + 1 == top_info.rank))) ∧
       can_stack_card wTab 3 top_id =
        (((⟨0, 3, true, 0⟩ : CardInfo).color != top_info.color) &&
          ((⟨0, 3, true, 0⟩ : CardInfo).rank + 1 == top_info.rank))))) :=
  ⟨by decide, by decide, by decide,
    tableau_acceptance_characterization wTab 3 1 ⟨0, 3, true, 0⟩ ⟨.Tableau 0, [4], none⟩ 0
      (by decide) (by decide) (by decide)⟩

/-- Counterexample to C2 as stated: the foundation at entity 10 (suit 0)
is empty and card 14 is the ♥A (rank 0, suit 0), so the claimed
equivalence demands acceptance, but `can_move_to_foundation` rejects
the card because it is face-down. -/
theorem foundation_acceptance_claim_counterexample :
    wTab.getStack 10 = some ⟨.Foundation 0, [], some 13⟩ ∧
    wTab.getCardInfo 14 = some ⟨0, 0, false, 0⟩ ∧
    can_move_to_foundation wTab 14 10 = false := by decide

/-- C2 (amended): for a card with `CardInfo` and a foundation-typed
stack for suit `suit`, `can_move_to_foundation` accepts exactly the
face-up cards that are the suit's ace on an empty foundation, or match
the suit and sit one rank above the top card. -/
theorem foundation_acceptance_characterization
    (w : World) (card_id foundation_id : EntityId) (info : CardInfo)
    (fnd : StackContainer) (suit : Nat)
    (hc : w.getCardInfo card_id = some info)
    (ht : w.getStack foundation_id = some fnd)
    (hty : fnd.stack_type = .Foundation suit) :
    (fnd.cards = [] →
      can_move_to_foundation w card_id foundation_id =
        (info.face_up && ((info.rank == 0) && (info.suit == suit)))) ∧
    (∀ top_id top_info, fnd.get_top_card = some top_id →
      w.getCardInfo top_id = some top_info →
      can_move_to_foundation w card_id foundation_id =
        (info.face_up && ((info.suit == suit) && (info.rank == top_info.rank + 1)))) := by
  constructor
  · intro hempty
    unfold can_move_to_foundation
    simp [hc, ht, hty, StackContainer.is_empty, hempty]
  · intro top_id top_info htop hcTop
    have hne : fnd.cards ≠ [] := by
      intro habs
      rw [StackContainer.get_top_card, habs] at htop
      simp at htop
    unfold can_move_to_foundation
    simp only [hc, ht, hty]
    simp [StackContainer.is_empty, List.isEmpty_iff, hne, htop, hcTop]

/-- Witness for C2: the face-up ♥A (entity 13) onto the empty
foundation for suit 0 (entity 10). -/
theorem foundation_acceptance_witness :
    wTab.getCardInfo 13 = some ⟨0, 0, true, 0⟩ ∧
    wTab.getStack 10 = some ⟨.Foundation 0, [], some 13⟩ ∧
    (StackContainer.stack_type ⟨.Foundation 0, [], some 13⟩ = .Foundation 0) ∧
    (((⟨.Foundation 0, [], some 13⟩ : StackContainer).cards = [] →
      can_move_to_foundation wTab 13 10 =
        ((⟨0, 0, true, 0⟩ : CardInfo).face_up &&
          (((⟨0, 0, true, 0⟩ : CardInfo).rank == 0) &&
            ((⟨0, 0, true, 0⟩ : CardInfo).suit == 0)))) ∧
     (∀ top_id top_info,
      (⟨.Foundation 0, [], some 13⟩ : StackContainer).get_top_card = some top_id →
      wTab.getCardInfo top_id = some top_info →
      can_move_to_foundation wTab 13 10 =
        ((⟨0, 0, true, 0⟩ : CardInfo).face_up &&
          (((⟨0, 0, true, 0⟩ : CardInfo).suit == 0) &&
            ((⟨0, 0, true, 0⟩ : CardInfo).rank == top_info.rank + 1))))) :=
  ⟨by decide, by decide, by decide,
    foundation_acceptance_characterization wTab 13 10 ⟨0, 0, true, 0⟩
      ⟨.Foundation 0, [], some 13⟩ 0 (by decide) (by decide) (by decide)⟩

/-- C8: `create_entity` errors exactly when the alive count has reached
`MAX_ENTITIES`, and on such a failure the registry is returned
unchanged, so the count is unchanged and every alive id stays alive.
(The remaining registry operations are total functions of the model,
mirroring that only `create_entity` returns a `Result` in the source.) -/
theorem create_entity_capacity (m : EntityManager) :
    ((∃ e, (m.create_entity).1 = .error e) ↔ MAX_ENTITIES ≤ m.entity_count) ∧
    (MAX_ENTITIES ≤ m.entity_count →
      ((m.create_entity).2 = m ∧
       (m.create_entity).2.entity_count = m.entity_count ∧
       ∀ j ∈ m.active_entities, j ∈ (m.create_entity).2.active_entities)) := by
  unfold EntityManager.create_entity EntityManager.entity_count
  by_cases h : MAX_ENTITIES ≤ m.active_entities.card
  · simp [ge_iff_le, h]
  · simp [ge_iff_le, h]

/-- Witness for C8: the registry already holding ids 0..999. -/
theorem create_entity_capacity_witness :
    ((∃ e, (mFull.create_entity).1 = .error e) ↔ MAX_ENTITIES ≤ mFull.entity_count) ∧
    (MAX_ENTITIES ≤ mFull.entity_count →
      ((mFull.create_entity).2 = mFull ∧
       (mFull.create_entity).2.entity_count = mFull.entity_count ∧
       ∀ j ∈ mFull.active_entities, j ∈ (mFull.create_entity).2.active_entities)) :=
  create_entity_capacity mFull

/-- Counterexample to C6 as stated: before any housekeeping flush, the
components of the still-alive entity 0 are already unreachable right
after `remove_entity`. -/
theorem deferred_deletion_claim_counterexample :
    wDel.getCardInfo 0 = some ⟨0, 5, true, 0⟩ ∧
    (wDel.remove_entity 0).entity_exists 0 = true ∧
    (wDel.remove_entity 0).getCardInfo 0 = none ∧
    (wDel.remove_entity 0).getTransform 0 = none := by decide

/-- C6 (amended): deletion is two-phase only for the alive-set entry.
`remove_entity` removes every attached component immediately and marks
the id; the id stays alive until the post-tick housekeeping pass
(`World::update`), which removes it from the alive set and clears the
pending set. -/
theorem two_phase_removal_characterization (w : World) (id : EntityId)
    (halive : w.entity_exists id = true) :
    ((w.remove_entity id).entity_exists id = true) ∧
    ((w.remove_entity id).transforms id = none) ∧
    ((w.remove_entity id).card_infos id = none) ∧
    ((w.remove_entity id).renderables id = none) ∧
    ((w.remove_entity id).draggables id = none) ∧
    ((w.remove_entity id).clickables id = none) ∧
    ((w.remove_entity id).stackStore id = none) ∧
    (((w.remove_entity id).update).entity_exists id = false) ∧
    ((w.remove_entity id).update.em.entities_to_remove = ∅) := by
  have hin : id ∈ w.em.active_entities := by
    simpa [World.entity_exists, EntityManager.is_entity_active] using halive
  refine ⟨?_, by simp [World.remove_entity, store_erase],
    by simp [World.remove_entity, store_erase],
    by simp [World.remove_entity, store_erase],
    by simp [World.remove_entity, store_erase],
    by simp [World.remove_entity, store_erase],
    by simp [World.remove_entity, store_erase], ?_, ?_⟩
  · simp [World.remove_entity, World.entity_exists, EntityManager.is_entity_active,
      EntityManager.mark_entity_for_removal, hin]
  · simp [World.remove_entity, World.update, World.entity_exists,
      EntityManager.is_entity_active, EntityManager.mark_entity_for_removal,
      EntityManager.update, hin, Finset.mem_sdiff]
  · simp [World.remove_entity, World.update, EntityManager.mark_entity_for_removal,
      EntityManager.update, hin]

/-- Witness for C6: the single-entity world `wDel`. -/
theorem two_phase_removal_witness :
    wDel.entity_exists 0 = true ∧
    (((wDel.remove_entity 0).entity_exists 0 = true) ∧
     ((wDel.remove_entity 0).transforms 0 = none) ∧
     ((wDel.remove_entity 0).card_infos 0 = none) ∧
     ((wDel.remove_entity 0).renderables 0 = none) ∧
     ((wDel.remove_entity 0).draggables 0 = none) ∧
     ((wDel.remove_entity 0).clickables 0 = none) ∧
     ((wDel.remove_entity 0).stackStore 0 = none) ∧
     (((wDel.remove_entity 0).update).entity_exists 0 = false) ∧
     ((wDel.remove_entity 0).update.em.entities_to_remove = ∅)) :=
  ⟨by decide, two_phase_removal_characterization wDel 0 (by decide)⟩

end Game

namespace Game

theorem entity_exists_of_getTransform {w : World} {i : EntityId} {t : Transform}
    (h : w.getTransform i = some t) : w.entity_exists i = true := by
  unfold World.getTransform at h
  by_cases he : w.entity_exists i = true
  · exact he
  · simp [Bool.not_eq_true] at he
    simp [he] at h

theorem flip_card_shape (c : EntityId) (w : World) :
    ((flip_card c w).2.stackStore = w.stackStore) ∧
    ((flip_card c w).2.transforms = w.transforms) ∧
    ((flip_card c w).2.em = w.em) := by
  unfold flip_card add_draggable
  cases hci : w.getCardInfo c with
  | none => simp
  | some info =>
    simp only []
    split_ifs <;> simp [World.setCardInfo]

theorem flip_top_shape (id : EntityId) (w : World) :
    ((flip_top_if_tableau id w).2.stackStore = w.stackStore) ∧
    ((flip_top_if_tableau id w).2.transforms = w.transforms) ∧
    ((flip_top_if_tableau id w).2.em = w.em) := by
  unfold flip_top_if_tableau
  simp only [GameM_bind_eq, need, getW, throwE, GameM_pure_eq]
  cases hg : w.getStack id with
  | none => simp
  | some s =>
    simp only []
    cases hty : s.stack_type
    case Stock => exact ⟨rfl, rfl, rfl⟩
    case Waste => exact ⟨rfl, rfl, rfl⟩
    case Foundation suit => exact ⟨rfl, rfl, rfl⟩
    case Hand => exact ⟨rfl, rfl, rfl⟩
    case Tableau col =>
      cases hie : s.is_empty with
      | true => simp [GameM_pure_eq]
      | false =>
        simp only [Bool.not_false, if_true]
        cases htop : s.get_top_card with
        | none => simp [throwE]
        | some top =>
          simp only [GameM_bind_eq, getW]
          cases hci : w.getCardInfo top with
          | none => simp [GameM_pure_eq]
          | some info =>
            simp only []
            cases hfu : info.face_up with
            | true => simp [GameM_pure_eq]
            | false =>
              simpa using flip_card_shape top w



theorem entity_exists_of_getCardInfo {w : World} {i : EntityId} {c : CardInfo}
    (h : w.getCardInfo i = some c) : w.entity_exists i = true := by
  unfold World.getCardInfo at h
  by_cases he : w.entity_exists i = true
  · exact he
  · simp [Bool.not_eq_true] at he
    simp [he] at h

theorem flip_top_ok (w : World) (id : EntityId) (s : StackContainer)
    (h : w.getStack id = some s) :
    (flip_top_if_tableau id w).1 = .ok () := by
  unfold flip_top_if_tableau
  simp only [GameM_bind_eq, need, getW, throwE, GameM_pure_eq, h]
  cases hty : s.stack_type
  case Stock => rfl
  case Waste => rfl
  case Foundation suit => rfl
  case Hand => rfl
  case Tableau col =>
    cases hie : s.is_empty with
    | true => rfl
    | false =>
      simp only [Bool.not_false, if_true]
      cases htop : s.get_top_card with
      | none =>
        exfalso
        unfold StackContainer.is_empty at hie
        unfold StackContainer.get_top_card at htop
        rw [List.getLast?_eq_none_iff] at htop
        simp [htop] at hie
      | some top =>
        simp only [GameM_bind_eq, getW]
        cases hci : w.getCardInfo top with
        | none => rfl
        | some info =>
          simp only []
          cases hfu : info.face_up with
          | true => rfl
          | false =>
            simp only [Bool.not_true, Bool.not_false, if_true]
            unfold flip_card
            simp only [hci]
            have halive : w.entity_exists top = true := entity_exists_of_getCardInfo hci
            simp only [hfu]
            split_ifs <;> simp [add_draggable, halive]



theorem move_card_transform_characterization
    (w : World) (card_id from_id to_id : EntityId)
    (fs ts : StackContainer) (tt ct : Transform)
    (hfs : w.getStack from_id = some fs)
    (hcontains : fs.contains_card card_id = true)
    (htt : w.getTransform to_id = some tt)
    (hts : w.getStack to_id = some ts)
    (hct : w.getTransform card_id = some ct) :
    (move_card card_id from_id to_id w).1 = .ok true ∧
    ((move_card card_id from_id to_id w).2.getTransform card_id) =
      some { ct with position := tt.position, z_index := (ts.card_count : Int) } := by
  have halive_card : w.entity_exists card_id = true := entity_exists_of_getTransform hct
  have halive_from : w.entity_exists from_id = true := entity_exists_of_getStack hfs
  have halive_to : w.entity_exists to_id = true := entity_exists_of_getStack hts
  unfold move_card
  simp only [GameM_bind_eq, need, getW, setStackM, set_card_position, GameM_pure_eq,
    hfs, hcontains, htt, hts, Bool.not_true, Bool.false_eq_true, if_false,
    getTransform_setStack, hct, getStack_setTransform]
  by_cases hft : to_id = from_id
  · subst hft
    rw [getStack_setStack_self _ _ _ halive_from]
    simp only []
    set X := fs.remove_card card_id with hX
    set v : Transform :=
      { position := ⟨tt.position.x, tt.position.y⟩, scale := ct.scale,
        rotation := ct.rotation, z_index := (ts.card_count : Int) } with hv
    set w1 := w.setStack to_id X with hw1
    set w2 := w1.setTransform card_id v with hw2
    set w3 := w2.setStack to_id (X.add_card card_id) with hw3
    have halive3 : w3.entity_exists to_id = true := by
      simp [hw3, hw2, hw1, halive_from]
    have hpresent : w3.getStack to_id = some (X.add_card card_id) := by
      rw [hw3]
      exact getStack_setStack_self _ _ _ (by simp [hw2, hw1, halive_from])
    have hok := flip_top_ok w3 to_id _ hpresent
    have hsh := flip_top_shape to_id w3
    constructor
    · split
      · rfl
      · rename_i e w4 heq
        rw [heq] at hok
        simp at hok
    · split
      · rename_i a w4 heq
        rw [heq] at hsh
        unfold World.getTransform
        have hem : w4.em = w.em := by
          rw [hsh.2.2, hw3, hw2, hw1]
          rfl
        have htr : w4.transforms = w3.transforms := hsh.2.1
        rw [htr]
        have : w3.transforms card_id = some v := by
          rw [hw3, hw2, hw1]
          simp [World.setStack, World.setTransform, store_set]
        rw [World.entity_exists, hem]
        have halive2 : w.em.is_entity_active card_id = true := halive_card
        rw [halive2]
        simp [this]
      · rename_i e w4 heq
        rw [heq] at hok
        simp at hok
  · rw [getStack_setStack_ne _ _ _ _ hft, hts]
    simp only []
    set X := fs.remove_card card_id with hX
    set v : Transform :=
      { position := ⟨tt.position.x, tt.position.y⟩, scale := ct.scale,
        rotation := ct.rotation, z_index := (ts.card_count : Int) } with hv
    set w1 := w.setStack from_id X with hw1
    set w2 := w1.setTransform card_id v with hw2
    set w3 := w2.setStack to_id (ts.add_card card_id) with hw3
    have hpresent : w3.getStack from_id = some X := by
      rw [hw3, getStack_setStack_ne _ _ _ _ (Ne.symm hft), hw2, getStack_setTransform,
        hw1, getStack_setStack_self _ _ _ halive_from]
    have hok := flip_top_ok w3 from_id _ hpresent
    have hsh := flip_top_shape from_id w3
    constructor
    · split
      · rfl
      · rename_i e w4 heq
        rw [heq] at hok
        simp at hok
    · split
      · rename_i a w4 heq
        rw [heq] at hsh
        unfold World.getTransform
        have hem : w4.em = w.em := by
          rw [hsh.2.2, hw3, hw2, hw1]
          rfl
        have htr : w4.transforms = w3.transforms := hsh.2.1
        rw [htr]
        have hval : w3.transforms card_id = some v := by
          rw [hw3, hw2, hw1]
          simp [World.setStack, World.setTransform, store_set]
        rw [World.entity_exists, hem]
        have halive2 : w.em.is_entity_active card_id = true := halive_card
        rw [halive2]
        simp [hval]
      · rename_i e w4 heq
        rw [heq] at hok
        simp at hok

/-- Counterexample to C3 as stated: moving card 3 (from the waste) onto
tableau 1, whose anchor is (100,200) and which already holds one card,
succeeds; the moved card's position is exactly the anchor with z-order
1, not the anchor offset vertically by `STACK_OFFSET_Y * 1` the claim
requires for a tableau destination. -/
theorem move_transform_claim_counterexample :
    (move_card 3 11 1 wTab).1 = .ok true ∧
    wTab.getTransform 1 = some (Transform.new 100 200) ∧
    wTab.getStack 1 = some ⟨.Tableau 0, [4], none⟩ ∧
    ((move_card 3 11 1 wTab).2.getTransform 3) =
      some { position := ⟨100, 200⟩, scale := ⟨1, 1⟩, rotation := 0, z_index := 1 } ∧
    (200 : ℚ) ≠ 200 + STACK_OFFSET_Y * 1 :=
  ⟨rfl, by decide, by decide, by decide, by norm_num [STACK_OFFSET_Y]⟩

/-- Witness for C3: the same concrete move, through the general theorem. -/
theorem move_card_transform_witness :
    wTab.getStack 11 = some ⟨.Waste, [3, 13], none⟩ ∧
    StackContainer.contains_card ⟨.Waste, [3, 13], none⟩ 3 = true ∧
    wTab.getTransform 1 = some (Transform.new 100 200) ∧
    wTab.getStack 1 = some ⟨.Tableau 0, [4], none⟩ ∧
    wTab.getTransform 3 = some (Transform.new 5 5) ∧
    ((move_card 3 11 1 wTab).1 = .ok true ∧
     ((move_card 3 11 1 wTab).2.getTransform 3) =
       some { Transform.new 5 5 with
              position := (Transform.new 100 200).position,
              z_index := ((StackContainer.card_count ⟨.Tableau 0, [4], none⟩ : Nat) : Int) }) :=
  ⟨by decide, by decide, by decide, by decide, by decide,
    move_card_transform_characterization wTab 3 11 1 ⟨.Waste, [3, 13], none⟩
      ⟨.Tableau 0, [4], none⟩ (Transform.new 100 200) (Transform.new 5 5)
      (by decide) (by decide) (by decide) (by decide) (by decide)⟩

end Game

namespace Game

theorem foldl_add_card (s : StackContainer) (cs : List EntityId) :
    cs.foldl StackContainer.add_card s = { s with cards := s.cards ++ cs } := by
  induction cs generalizing s with
  | nil => simp
  | cons c rest ih =>
    simp only [List.foldl_cons, ih, StackContainer.add_card]
    simp

theorem reset_cards_loop_spec (x y : ℚ) :
    ∀ (cards : List EntityId) (i : Nat) (w : World),
      (∀ c ∈ cards, (w.getTransform c).isSome) →
      ∃ w2, reset_cards_loop x y cards i w = (.ok (), w2) ∧
        w2.stackStore = w.stackStore ∧
        w2.em = w.em ∧
        (∀ j, w2.card_infos j =
          if j ∈ cards ∧ w.entity_exists j = true then
            Option.map (fun ci => { ci with face_up := false }) (w.card_infos j)
          else w.card_infos j) := by
  intro cards
  induction cards with
  | nil =>
    intro i w _
    refine ⟨w, rfl, rfl, rfl, fun j => by simp⟩
  | cons c rest ih =>
    intro i w hT
    have hTc : (w.getTransform c).isSome := hT c (List.mem_cons_self c rest)
    obtain ⟨w1, hw1run, hw1stacks, hw1em, hw1tr, hw1ci⟩ :
        ∃ w1, modify_card_info c (fun info => { info with face_up := false }) w = (.ok (), w1) ∧
          w1.stackStore = w.stackStore ∧ w1.em = w.em ∧ w1.transforms = w.transforms ∧
          (∀ j, w1.card_infos j =
            if j = c ∧ w.entity_exists j = true then
              Option.map (fun ci => { ci with face_up := false }) (w.card_infos j)
            else w.card_infos j) := by
      unfold modify_card_info
      cases hci : w.getCardInfo c with
      | none =>
        refine ⟨w, rfl, rfl, rfl, rfl, fun j => ?_⟩
        by_cases hj : j = c ∧ w.entity_exists j = true
        · obtain ⟨rfl, halive⟩ := hj
          unfold World.getCardInfo at hci
          rw [halive] at hci
          simp only [if_true] at hci
          simp [hci]
        · simp [hj]
      | some info =>
        have halivec : w.entity_exists c = true := entity_exists_of_getCardInfo hci
        have hraw : w.card_infos c = some info := by
          unfold World.getCardInfo at hci
          rw [halivec] at hci
          simpa using hci
        refine ⟨_, rfl, rfl, rfl, rfl, fun j => ?_⟩
        by_cases hjc : j = c
        · subst hjc
          simp [World.setCardInfo, store_set, hraw, halivec]
        · simp [World.setCardInfo, store_set, hjc]
    have hTc1 : (w1.getTransform c).isSome := by
      unfold World.getTransform at hTc ⊢
      rw [hw1tr, World.entity_exists, hw1em]
      exact hTc
    obtain ⟨t1, ht1⟩ := Option.isSome_iff_exists.mp hTc1
    have hposrun : set_card_position c x y (i : Int) w1 =
        (.ok (), w1.setTransform c { t1 with position := ⟨x, y⟩, z_index := (i : Int) }) := by
      unfold set_card_position
      rw [ht1]
    set w2 := w1.setTransform c { t1 with position := ⟨x, y⟩, z_index := (i : Int) } with hw2
    have hw2em : w2.em = w.em := by rw [hw2, em_setTransform, hw1em]
    have hw2st : w2.stackStore = w.stackStore := by rw [hw2, stackStore_setTransform, hw1stacks]
    have hw2ci : w2.card_infos = w1.card_infos := by rw [hw2]; rfl
    have hT2 : ∀ c2 ∈ rest, (w2.getTransform c2).isSome := by
      intro c2 hc2
      have horig := hT c2 (List.mem_cons_of_mem c hc2)
      unfold World.getTransform at horig ⊢
      have he : w2.entity_exists c2 = w.entity_exists c2 := by
        rw [World.entity_exists, World.entity_exists, hw2em]
      rw [he]
      by_cases ha : w.entity_exists c2 = true
      · rw [if_pos ha] at horig
        rw [if_pos ha, hw2, World.setTransform]
        simp only [store_set, hw1tr]
        by_cases hc2c : c2 = c <;> simp [hc2c, horig]
      · rw [if_neg ha] at horig
        simp at horig
    obtain ⟨w3, hrun3, hst3, hem3, hci3⟩ := ih (i + 1) w2 hT2
    refine ⟨w3, ?_, ?_, ?_, ?_⟩
    · unfold reset_cards_loop
      simp only [GameM_bind_eq, hw1run, hposrun, hrun3]
    · rw [hst3, hw2st]
    · rw [hem3, hw2em]
    · intro j
      have hem2j : w2.entity_exists j = w.entity_exists j := by
        rw [World.entity_exists, World.entity_exists, hw2em]
      rw [hci3 j, hem2j, hw2ci, hw1ci j]
      by_cases h3 : w.entity_exists j = true
      · by_cases h1 : j = c
        · subst h1
          by_cases h2 : j ∈ rest
          · simp only [h2, h3, and_true, if_true, List.mem_cons, true_or, or_true,
              eq_self_iff_true, true_and, if_pos]
            cases w.card_infos j <;> rfl
          · simp [h2, h3, List.mem_cons]
        · by_cases h2 : j ∈ rest
          · simp [h1, h2, h3, List.mem_cons]
          · simp [h1, h2, h3, List.mem_cons]
      · simp [h3]



theorem reset_stock_from_waste_spec
    (w : World) (stock_id waste_id : EntityId) (waste : StackContainer)
    (hw : w.getStack waste_id = some waste) :
    (waste.cards = [] → reset_stock_from_waste stock_id waste_id w = (.ok false, w)) ∧
    (∀ stock st, waste.cards ≠ [] →
      w.getStack stock_id = some stock →
      stock_id ≠ waste_id →
      w.getTransform stock_id = some st →
      (∀ c ∈ waste.cards, (w.getTransform c).isSome) →
      ∃ w2, reset_stock_from_waste stock_id waste_id w = (.ok true, w2) ∧
        w2.getStack stock_id = some { stock with cards := stock.cards ++ waste.cards } ∧
        w2.getStack waste_id = some { waste with cards := [] } ∧
        (∀ c ∈ waste.cards, ∀ ci, w.getCardInfo c = some ci →
          w2.getCardInfo c = some { ci with face_up := false })) := by
  constructor
  · intro hemp
    unfold reset_stock_from_waste
    simp only [GameM_bind_eq, need, hw]
    simp [StackContainer.is_empty, hemp, GameM_pure_eq]
  · intro stock st hne hstock hne_ids hst hT
    have halive_w : w.entity_exists waste_id = true := entity_exists_of_getStack hw
    have halive_s : w.entity_exists stock_id = true := entity_exists_of_getStack hstock
    have hie : waste.is_empty = false := by
      simp [StackContainer.is_empty, hne]
    unfold reset_stock_from_waste
    simp only [GameM_bind_eq, need, hw, setStackM, GameM_pure_eq, hie, Bool.false_eq_true,
      if_false]
    set w1 := w.setStack waste_id waste.clear_cards with hw1
    have h1t : w1.getTransform stock_id = some st := by
      rw [hw1, getTransform_setStack]
      exact hst
    simp only [h1t]
    have hT1 : ∀ c ∈ waste.get_all_cards, (w1.getTransform c).isSome := by
      intro c hc
      rw [hw1, getTransform_setStack]
      exact hT c hc
    obtain ⟨w2, hloop, hst2, hem2, hci2⟩ :=
      reset_cards_loop_spec st.position.x st.position.y waste.get_all_cards 0 w1 hT1
    simp only [hloop]
    have hstock2 : w2.getStack stock_id = some stock := by
      unfold World.getStack
      have he2 : w2.entity_exists stock_id = true := by
        rw [World.entity_exists, hem2, hw1, em_setStack]
        exact halive_s
      rw [he2, if_pos rfl, hst2, hw1, stackStore_setStack,
        store_set_ne _ _ _ _ hne_ids]
      exact stackStore_of_getStack hstock
    unfold modify_stack
    simp only [hstock2, foldl_add_card]
    refine ⟨_, rfl, ?_, ?_, ?_⟩
    · apply getStack_setStack_self
      rw [World.entity_exists]
      have : w2.em = w.em := by rw [hem2, hw1, em_setStack]
      rw [this]
      exact halive_s
    · rw [getStack_setStack_ne _ _ _ _ (Ne.symm hne_ids)]
      unfold World.getStack
      have he2 : w2.entity_exists waste_id = true := by
        rw [World.entity_exists, hem2, hw1, em_setStack]
        exact halive_w
      rw [he2, if_pos rfl, hst2, hw1, stackStore_setStack, store_set_self]
      rfl
    · intro c hc ci hci
      have halivec : w.entity_exists c = true := entity_exists_of_getCardInfo hci
      have hrawc : w.card_infos c = some ci := by
        unfold World.getCardInfo at hci
        rw [halivec] at hci
        simpa using hci
      have hcemerge : (w2.setStack stock_id
          { stock with cards := stock.cards ++ waste.get_all_cards }).getCardInfo c =
          w2.getCardInfo c := by
        rw [getCardInfo_setStack]
      rw [hcemerge]
      unfold World.getCardInfo
      have he2 : w2.entity_exists c = true := by
        rw [World.entity_exists, hem2, hw1, em_setStack]
        exact halivec
      rw [he2, if_pos rfl, hci2 c]
      have hc1 : c ∈ waste.get_all_cards ∧ w1.entity_exists c = true := by
        refine ⟨hc, ?_⟩
        rw [hw1, entity_exists_setStack]
        exact halivec
      rw [if_pos hc1, hw1]
      have : (w.setStack waste_id waste.clear_cards).card_infos c = w.card_infos c := rfl
      rw [this, hrawc]
      rfl

/-- Witness for C4: recycling the two-card waste of `wTab` into its
empty stock. -/
theorem reset_stock_from_waste_witness :
    wTab.getStack 11 = some ⟨.Waste, [3, 13], none⟩ ∧
    ((⟨.Waste, [3, 13], none⟩ : StackContainer).cards ≠ []) ∧
    wTab.getStack 12 = some ⟨.Stock, [], none⟩ ∧
    (12 : EntityId) ≠ 11 ∧
    wTab.getTransform 12 = some (Transform.new 100 50) ∧
    (∀ c ∈ (⟨.Waste, [3, 13], none⟩ : StackContainer).cards,
      (wTab.getTransform c).isSome = true) ∧
    (∃ w2, reset_stock_from_waste 12 11 wTab = (.ok true, w2) ∧
      w2.getStack 12 = some ⟨.Stock, [3, 13], none⟩ ∧
      w2.getStack 11 = some ⟨.Waste, [], none⟩ ∧
      (∀ c ∈ (⟨.Waste, [3, 13], none⟩ : StackContainer).cards,
        ∀ ci, wTab.getCardInfo c = some ci →
          w2.getCardInfo c = some { ci with face_up := false })) :=
  ⟨by decide, by decide, by decide, by decide, by decide, by decide,
    (reset_stock_from_waste_spec wTab 12 11 ⟨.Waste, [3, 13], none⟩ (by decide)).2
      ⟨.Stock, [], none⟩ (Transform.new 100 50) (by decide) (by decide) (by decide)
      (by decide) (by decide)⟩

end Game

namespace Game

theorem system_le_total {σ : Type} (a b : SystemEntry σ) :
    (system_le a b || system_le b a) = true := by
  unfold system_le
  by_cases h1 : a.phase.idx < b.phase.idx
  · simp [h1]
  · by_cases h2 : b.phase.idx < a.phase.idx
    · simp [h2]
    · have heq : a.phase.idx = b.phase.idx := by omega
      by_cases h3 : a.priority ≤ b.priority
      · simp [heq, h3]
      · have h4 : b.priority ≤ a.priority := by omega
        simp [heq, h3, h4]

theorem system_le_trans {σ : Type} (a b c : SystemEntry σ)
    (hab : system_le a b = true) (hbc : system_le b c = true) :
    system_le a c = true := by
  unfold system_le at *
  simp only [Bool.or_eq_true, Bool.and_eq_true, beq_iff_eq, decide_eq_true_eq] at *
  omega

theorem run_systems_list_prefix {σ : Type} :
    ∀ (l : List (Nat × SystemEntry σ)) (s : σ),
      (run_systems_list s l).1 <+: l.map Prod.fst
  | [], s => by simp [run_systems_list]
  | (i, sys) :: rest, s => by
    unfold run_systems_list
    cases hrun : sys.run s with
    | ok s2 =>
      simp only [List.map_cons]
      obtain ⟨t, ht⟩ := run_systems_list_prefix rest s2
      exact ⟨t, by simp [ht]⟩
    | error e =>
      simp only [List.map_cons]
      exact ⟨(rest.map Prod.fst), rfl⟩

theorem run_systems_list_ok {σ : Type} :
    ∀ (l : List (Nat × SystemEntry σ)) (s : σ) (s2 : σ),
      (run_systems_list s l).2 = .ok s2 →
      (run_systems_list s l).1 = l.map Prod.fst
  | [], s, s2, _ => rfl
  | (i, sys) :: rest, s, s2, h => by
    unfold run_systems_list at *
    cases hrun : sys.run s with
    | ok s3 =>
      rw [hrun] at h
      simp only [List.map_cons]
      exact congrArg (i :: ·) (run_systems_list_ok rest s3 s2 h)
    | error e =>
      rw [hrun] at h
      simp at h

theorem run_systems_list_error {σ : Type} :
    ∀ (l : List (Nat × SystemEntry σ)) (s : σ) (e : String),
      (run_systems_list s l).2 = .error e →
      ∃ l1 x l2, l = l1 ++ x :: l2 ∧
        (run_systems_list s l).1 = (l1 ++ [x]).map Prod.fst ∧
        ∃ s2, run_systems_all s l1 = .ok s2 ∧ x.2.run s2 = .error e
  | [], s, e, h => by simp [run_systems_list] at h
  | (i, sys) :: rest, s, e, h => by
    unfold run_systems_list at *
    cases hrun : sys.run s with
    | ok s3 =>
      rw [hrun] at h
      simp only [] at h
      obtain ⟨l1, x, l2, hsplit, htrace, s4, hall, hx⟩ :=
        run_systems_list_error rest s3 e h
      refine ⟨(i, sys) :: l1, x, l2, by rw [hsplit]; simp, ?_, s4, ?_, hx⟩
      · simp only [List.cons_append, List.map_cons]
        exact congrArg (i :: ·) htrace
      · unfold run_systems_all
        rw [hrun]
        exact hall
    | error e0 =>
      rw [hrun] at h
      have he : e0 = e := by simpa using h
      subst he
      exact ⟨[], (i, sys), rest, rfl, by simp, s, rfl, hrun⟩



/-- C9: one call to `run_systems` stably sorts the registered systems
by (phase, priority) and executes a prefix of that order: each system
at most once; success means the full pass ran; an error is the failing
system's error, and nothing after it ran. -/
theorem run_systems_spec {σ : Type} (systems : List (SystemEntry σ)) (s : σ) :
    ((sort_systems systems.enum).map Prod.fst).Perm (List.range systems.length) ∧
    (sort_systems systems.enum).Pairwise (fun a b => system_le a.2 b.2 = true) ∧
    (∀ p q, List.Sublist [p, q] systems.enum → system_le p.2 q.2 = true →
        List.Sublist [p, q] (sort_systems systems.enum)) ∧
    (run_systems systems s).1.Nodup ∧
    (run_systems systems s).1 <+: (sort_systems systems.enum).map Prod.fst ∧
    (∀ s2, (run_systems systems s).2 = .ok s2 →
        (run_systems systems s).1 = (sort_systems systems.enum).map Prod.fst) ∧
    (∀ e, (run_systems systems s).2 = .error e →
        ∃ l1 x l2, sort_systems systems.enum = l1 ++ x :: l2 ∧
          (run_systems systems s).1 = (l1 ++ [x]).map Prod.fst ∧
          ∃ s2, run_systems_all s l1 = .ok s2 ∧ x.2.run s2 = .error e) := by
  have htrans : ∀ (a b c : Nat × SystemEntry σ),
      system_le a.2 b.2 → system_le b.2 c.2 → system_le a.2 c.2 := by
    intro a b c hab hbc
    exact system_le_trans a.2 b.2 c.2 hab hbc
  have htotal : ∀ (a b : Nat × SystemEntry σ),
      (system_le a.2 b.2 || system_le b.2 a.2) = true := by
    intro a b
    exact system_le_total a.2 b.2
  have hperm : (sort_systems systems.enum).Perm systems.enum :=
    List.mergeSort_perm systems.enum _
  have hmapperm : ((sort_systems systems.enum).map Prod.fst).Perm (List.range systems.length) := by
    have := hperm.map Prod.fst
    rwa [List.enum_map_fst] at this
  refine ⟨hmapperm, ?_, ?_, ?_, ?_, ?_, ?_⟩
  · exact List.sorted_mergeSort htrans htotal systems.enum
  · intro p q hsub hle
    exact List.pair_sublist_mergeSort htrans htotal hle hsub
  · have hnodup : ((sort_systems systems.enum).map Prod.fst).Nodup :=
      hmapperm.nodup_iff.mpr (List.nodup_range _)
    obtain ⟨t, ht⟩ := run_systems_list_prefix (sort_systems systems.enum) s
    exact List.Nodup.of_append_left (ht ▸ hnodup)
  · exact run_systems_list_prefix _ s
  · intro s2 h
    exact run_systems_list_ok _ s s2 h
  · intro e h
    exact run_systems_list_error _ s e h

/-- Witness for C9: the three-system scheduler `[sysA, sysB, sysC]`. -/
theorem run_systems_spec_witness :
    (run_systems [sysA, sysB, sysC] (5 : Nat)).1.Nodup ∧
    (run_systems [sysA, sysB, sysC] (5 : Nat)).1 <+:
      (sort_systems ([sysA, sysB, sysC] : List (SystemEntry Nat)).enum).map Prod.fst :=
  ⟨(run_systems_spec [sysA, sysB, sysC] 5).2.2.2.1,
   (run_systems_spec [sysA, sysB, sysC] 5).2.2.2.2.1⟩

end Game

namespace Game

/-- `ExclusiveMembership` depends only on the stack store. -/
theorem exclusive_congr {w w2 : World} (h : w2.stackStore = w.stackStore)
    (hE : ExclusiveMembership w) : ExclusiveMembership w2 := by
  unfold ExclusiveMembership at *
  rw [h]
  exact hE

theorem notInAnyStack_congr {w w2 : World} {c : EntityId}
    (h : w2.stackStore = w.stackStore) (hc : NotInAnyStack w c) : NotInAnyStack w2 c := by
  unfold NotInAnyStack at *
  rw [h]
  exact hc

/-- Master preservation lemma for one stack write: the new sequence must
be duplicate-free, and each of its members must either come from the
old sequence at the same key or sit in no stack at all. -/
theorem exclusive_setStack (w : World) (i : EntityId) (newk : StackContainer)
    (hE : ExclusiveMembership w) (hnd : newk.cards.Nodup)
    (hold : ∀ c ∈ newk.cards,
      (∃ k, w.stackStore i = some k ∧ c ∈ k.cards) ∨ NotInAnyStack w c) :
    ExclusiveMembership (w.setStack i newk) := by
  obtain ⟨hcross, hndold⟩ := hE
  constructor
  · intro s1 s2 k1 k2 c h1 h2 hc1 hc2
    rw [stackStore_setStack] at h1 h2
    unfold store_set at h1 h2
    by_cases e1 : s1 = i <;> by_cases e2 : s2 = i
    · rw [e1, e2]
    · exfalso
      rw [if_pos e1] at h1
      rw [if_neg e2] at h2
      cases h1
      rcases hold c hc1 with ⟨k, hk, hck⟩ | hnot
      · exact e2 (hcross s2 i k2 k c h2 hk hc2 hck)
      · exact hnot s2 k2 h2 hc2
    · exfalso
      rw [if_neg e1] at h1
      rw [if_pos e2] at h2
      cases h2
      rcases hold c hc2 with ⟨k, hk, hck⟩ | hnot
      · exact e1 (hcross s1 i k1 k c h1 hk hc1 hck)
      · exact hnot s1 k1 h1 hc1
    · rw [if_neg e1] at h1
      rw [if_neg e2] at h2
      exact hcross s1 s2 k1 k2 c h1 h2 hc1 hc2
  · intro s k h
    rw [stackStore_setStack] at h
    unfold store_set at h
    by_cases e : s = i
    · rw [if_pos e] at h
      cases h
      exact hnd
    · rw [if_neg e] at h
      exact hndold s k h

/-- After removing a card from the only stack holding it, the card is in
no stack. -/
theorem notInAnyStack_after_remove (w : World) (f c : EntityId) (fs : StackContainer)
    (hE : ExclusiveMembership w) (hf : w.stackStore f = some fs)
    (hcf : c ∈ fs.cards) :
    NotInAnyStack (w.setStack f (fs.remove_card c)) c := by
  intro s k h hck
  rw [stackStore_setStack] at h
  unfold store_set at h
  by_cases e : s = f
  · rw [if_pos e] at h
    cases h
    exact (hE.2 f fs hf).not_mem_erase hck
  · rw [if_neg e] at h
    exact e (hE.1 s f k fs c h hf hck hcf)

end Game

namespace Game

theorem exclusive_after_remove (w : World) (f card_id : EntityId) (fs : StackContainer)
    (hE : ExclusiveMembership w) (hf : w.stackStore f = some fs) :
    ExclusiveMembership (w.setStack f (fs.remove_card card_id)) := by
  apply exclusive_setStack w f _ hE
  · exact (hE.2 f fs hf).erase card_id
  · intro c hc
    exact Or.inl ⟨fs, hf, List.mem_of_mem_erase hc⟩

/-- Appending a batch of cards that sit in no stack to one stack
preserves exclusivity, provided the batch is duplicate-free. -/
theorem exclusive_add_batch (w : World) (t : EntityId) (ts : StackContainer)
    (cs : List EntityId) (hE : ExclusiveMembership w)
    (ht : w.stackStore t = some ts)
    (hcs : ∀ c ∈ cs, NotInAnyStack w c) (hnd : cs.Nodup) :
    ExclusiveMembership (w.setStack t { ts with cards := ts.cards ++ cs }) := by
  apply exclusive_setStack w t _ hE
  · simp only []
    refine List.Nodup.append (hE.2 t ts ht) hnd ?_
    intro c hc1 hc2
    exact hcs c hc2 t ts ht hc1
  · intro c hc
    simp only [List.mem_append] at hc
    rcases hc with hc | hc
    · exact Or.inl ⟨ts, ht, hc⟩
    · exact Or.inr (hcs c hc)

theorem move_card_preserves_exclusive (card_id f t : EntityId) (w : World)
    (hE : ExclusiveMembership w) : ExclusiveMembership ((move_card card_id f t w).2) := by
  unfold move_card
  simp only [GameM_bind_eq, need, getW, setStackM, GameM_pure_eq]
  cases hfs : w.getStack f with
  | none => exact hE
  | some fs =>
    simp only []
    have hfraw : w.stackStore f = some fs := stackStore_of_getStack hfs
    cases hcont : fs.contains_card card_id with
    | false => simpa using hE
    | true =>
      simp only [Bool.not_true, Bool.false_eq_true, if_false, GameM_bind_eq, need,
        getW, setStackM, GameM_pure_eq]
      cases htt : w.getTransform t with
      | none => exact hE
      | some tt =>
        simp only [GameM_bind_eq, need, getW, setStackM, GameM_pure_eq]
        cases hts : w.getStack t with
        | none => exact hE
        | some ts =>
          simp only [GameM_bind_eq, need, getW, setStackM, GameM_pure_eq, hfs]
          have hmem : card_id ∈ fs.cards := by
            simpa [StackContainer.contains_card] using hcont
          have hE1 : ExclusiveMembership (w.setStack f (fs.remove_card card_id)) :=
            exclusive_after_remove w f card_id fs hE hfraw
          have hN1 : NotInAnyStack (w.setStack f (fs.remove_card card_id)) card_id :=
            notInAnyStack_after_remove w f card_id fs hE hfraw hmem
          set w1 := w.setStack f (fs.remove_card card_id) with hw1
          unfold set_card_position
          cases hct : w1.getTransform card_id with
          | none => exact hE1
          | some ct =>
            simp only [GameM_bind_eq, need, getW, setStackM, GameM_pure_eq]
            set w2 := w1.setTransform card_id
              { ct with
                position := ⟨tt.position.x, tt.position.y⟩,
                z_index := (ts.card_count : Int) } with hw2
            have hsame2 : w2.stackStore = w1.stackStore := by
              rw [hw2, stackStore_setTransform]
            have hE2 : ExclusiveMembership w2 := exclusive_congr hsame2 hE1
            have hN2 : NotInAnyStack w2 card_id := notInAnyStack_congr hsame2 hN1
            cases hts2 : w2.getStack t with
            | none => exact hE2
            | some ts2 =>
              simp only [GameM_bind_eq, need, getW, setStackM, GameM_pure_eq]
              have hraw2 : w2.stackStore t = some ts2 := stackStore_of_getStack hts2
              have hE3 : ExclusiveMembership (w2.setStack t (ts2.add_card card_id)) := by
                have := exclusive_add_batch w2 t ts2 [card_id] hE2 hraw2
                  (by intro c hc; simp at hc; subst hc; exact hN2) (by simp)
                simpa [StackContainer.add_card] using this
              set w3 := w2.setStack t (ts2.add_card card_id) with hw3
              cases hflip : flip_top_if_tableau f w3 with
              | mk res w4 =>
                have hsh := flip_top_shape f w3
                rw [hflip] at hsh
                have hE4 : ExclusiveMembership w4 := exclusive_congr hsh.1 hE3
                cases res with
                | ok u => exact hE4
                | error e => exact hE4
  
end Game

namespace Game

theorem notInAnyStack_after_clear (w : World) (waste_id c : EntityId)
    (waste : StackContainer) (hE : ExclusiveMembership w)
    (hwraw : w.stackStore waste_id = some waste) (hc : c ∈ waste.cards) :
    NotInAnyStack (w.setStack waste_id waste.clear_cards) c := by
  intro s k h hck
  rw [stackStore_setStack] at h
  unfold store_set at h
  by_cases e : s = waste_id
  · rw [if_pos e] at h
    cases h
    simp [StackContainer.clear_cards] at hck
  · rw [if_neg e] at h
    exact e (hE.1 s waste_id k waste c h hwraw hck hc)

theorem set_card_draggable_shape (c : EntityId) (b : Bool) (w : World) :
    ((set_card_draggable c b w).2.stackStore = w.stackStore) ∧
    ((set_card_draggable c b w).2.transforms = w.transforms) ∧
    ((set_card_draggable c b w).2.card_infos = w.card_infos) ∧
    ((set_card_draggable c b w).2.em = w.em) := by
  unfold set_card_draggable add_draggable remove_draggable
  split_ifs <;> simp

theorem modify_card_info_shape (c : EntityId) (g : CardInfo → CardInfo) (w : World) :
    ((modify_card_info c g w).2.stackStore = w.stackStore) ∧
    ((modify_card_info c g w).2.transforms = w.transforms) ∧
    ((modify_card_info c g w).2.em = w.em) := by
  unfold modify_card_info
  cases h : w.getCardInfo c <;> simp [World.setCardInfo]

theorem set_card_position_shape (c : EntityId) (x y : ℚ) (z : Int) (w : World) :
    ((set_card_position c x y z w).2.stackStore = w.stackStore) ∧
    ((set_card_position c x y z w).2.card_infos = w.card_infos) ∧
    ((set_card_position c x y z w).2.em = w.em) := by
  unfold set_card_position
  cases h : w.getTransform c <;> simp [World.setTransform]

theorem reset_cards_loop_shape (x y : ℚ) :
    ∀ (cards : List EntityId) (i : Nat) (w : World),
      ((reset_cards_loop x y cards i w).2.stackStore = w.stackStore) ∧
      ((reset_cards_loop x y cards i w).2.em = w.em)
  | [], i, w => ⟨rfl, rfl⟩
  | c :: rest, i, w => by
    unfold reset_cards_loop
    simp only [GameM_bind_eq]
    cases hm : modify_card_info c (fun info => { info with face_up := false }) w with
    | mk res1 w1 =>
      have hsh1 := modify_card_info_shape c (fun info => { info with face_up := false }) w
      rw [hm] at hsh1
      cases res1 with
      | error e => exact ⟨hsh1.1, hsh1.2.2⟩
      | ok u =>
        simp only []
        cases hp : set_card_position c x y (i : Int) w1 with
        | mk res2 w2 =>
          have hsh2 := set_card_position_shape c x y (i : Int) w1
          rw [hp] at hsh2
          cases res2 with
          | error e => exact ⟨hsh2.1.trans hsh1.1, hsh2.2.2.trans hsh1.2.2⟩
          | ok u2 =>
            simp only []
            have hsh3 := reset_cards_loop_shape x y rest (i + 1) w2
            exact ⟨(hsh3.1.trans hsh2.1).trans hsh1.1,
              (hsh3.2.trans hsh2.2.2).trans hsh1.2.2⟩

theorem position_cards_loop_shape (bx by2 : ℚ) (n : Nat) (st : StackType) :
    ∀ (cards : List EntityId) (i : Nat) (w : World),
      ((position_cards_loop bx by2 n st cards i w).2.stackStore = w.stackStore) ∧
      ((position_cards_loop bx by2 n st cards i w).2.em = w.em)
  | [], i, w => ⟨rfl, rfl⟩
  | c :: rest, i, w => by
    unfold position_cards_loop
    simp only [GameM_bind_eq]
    cases hp : set_card_position c bx (by2 + tableau_y_offset st i)
        ((n + i : Nat) : Int) w with
    | mk res2 w2 =>
      have hsh2 := set_card_position_shape c bx (by2 + tableau_y_offset st i)
        ((n + i : Nat) : Int) w
      rw [hp] at hsh2
      cases res2 with
      | error e => exact ⟨hsh2.1, hsh2.2.2⟩
      | ok u2 =>
        simp only []
        have hsh3 := position_cards_loop_shape bx by2 n st rest (i + 1) w2
        exact ⟨hsh3.1.trans hsh2.1, hsh3.2.trans hsh2.2.2⟩

theorem stock_cards_loop_shape (x y : ℚ) :
    ∀ (cards : List EntityId) (i : Nat) (w : World),
      ((stock_cards_loop x y cards i w).2.stackStore = w.stackStore) ∧
      ((stock_cards_loop x y cards i w).2.em = w.em)
  | [], i, w => ⟨rfl, rfl⟩
  | c :: rest, i, w => by
    unfold stock_cards_loop
    simp only [GameM_bind_eq]
    cases hp : set_card_position c x y (i : Int) w with
    | mk res2 w2 =>
      have hsh2 := set_card_position_shape c x y (i : Int) w
      rw [hp] at hsh2
      cases res2 with
      | error e => exact ⟨hsh2.1, hsh2.2.2⟩
      | ok u2 =>
        simp only []
        have hsh3 := stock_cards_loop_shape x y rest (i + 1) w2
        exact ⟨hsh3.1.trans hsh2.1, hsh3.2.trans hsh2.2.2⟩

end Game

namespace Game

theorem reset_preserves_exclusive (stock_id waste_id : EntityId) (w : World)
    (hE : ExclusiveMembership w) :
    ExclusiveMembership ((reset_stock_from_waste stock_id waste_id w).2) := by
  unfold reset_stock_from_waste
  simp only [GameM_bind_eq, need, getW, setStackM, GameM_pure_eq]
  cases hw : w.getStack waste_id with
  | none => exact hE
  | some waste =>
    simp only []
    have hwraw : w.stackStore waste_id = some waste := stackStore_of_getStack hw
    cases hie : waste.is_empty with
    | true => simpa using hE
    | false =>
      simp only [Bool.false_eq_true, if_false, GameM_bind_eq, need, getW, setStackM,
        GameM_pure_eq]
      set w1 := w.setStack waste_id waste.clear_cards with hw1
      have hE1 : ExclusiveMembership w1 := by
        apply exclusive_setStack w waste_id _ hE
        · simp [StackContainer.clear_cards]
        · intro c hc
          simp [StackContainer.clear_cards] at hc
      have hN1 : ∀ c ∈ waste.cards, NotInAnyStack w1 c := fun c hc =>
        notInAnyStack_after_clear w waste_id c waste hE hwraw hc
      cases ht : w1.getTransform stock_id with
      | none => exact hE1
      | some st =>
        simp only [GameM_bind_eq, need, getW, setStackM, GameM_pure_eq]
        cases hloop : reset_cards_loop st.position.x st.position.y
            waste.get_all_cards 0 w1 with
        | mk res w2 =>
          have hsh := reset_cards_loop_shape st.position.x st.position.y
            waste.get_all_cards 0 w1
          rw [hloop] at hsh
          have hE2 : ExclusiveMembership w2 := exclusive_congr hsh.1 hE1
          cases res with
          | error e => exact hE2
          | ok u =>
            simp only []
            unfold modify_stack
            cases hst2 : w2.getStack stock_id with
            | none => exact hE2
            | some stock =>
              simp only [foldl_add_card]
              apply exclusive_add_batch w2 stock_id stock waste.get_all_cards hE2
                (stackStore_of_getStack hst2)
              · intro c hc
                exact notInAnyStack_congr hsh.1 (hN1 c hc)
              · exact hE.2 waste_id waste hwraw

theorem draw_preserves_exclusive (stock_id waste_id : EntityId) (w : World)
    (hE : ExclusiveMembership w) :
    ExclusiveMembership ((draw_from_stock stock_id waste_id w).2) := by
  unfold draw_from_stock
  simp only [GameM_bind_eq, need, getW, setStackM, GameM_pure_eq]
  cases hs : w.getStack stock_id with
  | none => exact hE
  | some stock =>
    simp only []
    have hsraw : w.stackStore stock_id = some stock := stackStore_of_getStack hs
    cases hie : stock.is_empty with
    | true =>
      simp only [if_true]
      exact reset_preserves_exclusive stock_id waste_id w hE
    | false =>
      simp only [Bool.false_eq_true, if_false, GameM_bind_eq, need, getW, setStackM,
        GameM_pure_eq, hs, hie]
      unfold StackContainer.remove_top_card
      cases hpop : stock.cards.getLast? with
      | none => exact hE
      | some card_id =>
        simp only [GameM_bind_eq, need, getW, setStackM, GameM_pure_eq]
        have hdecomp : stock.cards.dropLast ++ [card_id] = stock.cards :=
          List.dropLast_append_getLast? card_id hpop
        have hmem : card_id ∈ stock.cards := by
          rw [← hdecomp]
          simp
        set w1 := w.setStack stock_id { stock with cards := stock.cards.dropLast } with hw1
        have hE1 : ExclusiveMembership w1 := by
          apply exclusive_setStack w stock_id _ hE
          · exact (hE.2 stock_id stock hsraw).sublist (List.dropLast_sublist _)
          · intro c hc
            simp only [] at hc
            exact Or.inl ⟨stock, hsraw, (List.dropLast_sublist _).mem hc⟩
        have hN1 : NotInAnyStack w1 card_id := by
          intro s k h hck
          rw [hw1, stackStore_setStack] at h
          unfold store_set at h
          by_cases e : s = stock_id
          · rw [if_pos e] at h
            cases h
            simp only [] at hck
            have hnd := hE.2 stock_id stock hsraw
            rw [← hdecomp] at hnd
            have := List.disjoint_of_nodup_append hnd
            exact this hck (by simp)
          · rw [if_neg e] at h
            exact e (hE.1 s stock_id k stock card_id h hsraw hck hmem)
        cases ht : w1.getTransform waste_id with
        | none => exact hE1
        | some wt =>
          simp only [GameM_bind_eq, need, getW, setStackM, GameM_pure_eq]
          cases hws : w1.getStack waste_id with
          | none => exact hE1
          | some waste =>
            simp only [GameM_bind_eq, need, getW, setStackM, GameM_pure_eq]
            unfold set_card_position
            cases hct : w1.getTransform card_id with
            | none => exact hE1
            | some ct =>
              simp only [GameM_bind_eq, need, getW, setStackM, GameM_pure_eq]
              set w2 := w1.setTransform card_id
                { ct with
                  position := ⟨wt.position.x, wt.position.y⟩,
                  z_index := (waste.card_count : Int) } with hw2
              have hsame2 : w2.stackStore = w1.stackStore := by
                rw [hw2, stackStore_setTransform]
              have hE2 : ExclusiveMembership w2 := exclusive_congr hsame2 hE1
              have hN2 : NotInAnyStack w2 card_id := notInAnyStack_congr hsame2 hN1
              cases hflip : flip_card card_id w2 with
              | mk res3 w3 =>
                have hsh3 := flip_card_shape card_id w2
                rw [hflip] at hsh3
                have hE3 : ExclusiveMembership w3 := exclusive_congr hsh3.1 hE2
                have hN3 : NotInAnyStack w3 card_id := notInAnyStack_congr hsh3.1 hN2
                cases res3 with
                | error e => exact hE3
                | ok u3 =>
                  simp only []
                  cases hdrag : set_card_draggable card_id true w3 with
                  | mk res4 w4 =>
                    have hsh4 := set_card_draggable_shape card_id true w3
                    rw [hdrag] at hsh4
                    have hE4 : ExclusiveMembership w4 := exclusive_congr hsh4.1 hE3
                    have hN4 : NotInAnyStack w4 card_id := notInAnyStack_congr hsh4.1 hN3
                    cases res4 with
                    | error e => exact hE4
                    | ok u4 =>
                      simp only []
                      unfold modify_stack
                      cases hws2 : w4.getStack waste_id with
                      | none => exact hE4
                      | some waste2 =>
                        simp only []
                        have := exclusive_add_batch w4 waste_id waste2 [card_id] hE4
                          (stackStore_of_getStack hws2)
                          (by intro c hc; simp at hc; subst hc; exact hN4) (by simp)
                        simpa [StackContainer.add_card] using this

end Game

namespace Game

theorem foldl_remove_card (s : StackContainer) (cs : List EntityId) :
    cs.foldl StackContainer.remove_card s = { s with cards := s.cards.diff cs } := by
  induction cs generalizing s with
  | nil => simp
  | cons c rest ih =>
    simp only [List.foldl_cons, ih, StackContainer.remove_card, List.diff_cons]

theorem move_card_stack_preserves_exclusive (card_id f t : EntityId) (w : World)
    (hE : ExclusiveMembership w) :
    ExclusiveMembership ((move_card_stack card_id f t w).2) := by
  unfold move_card_stack
  simp only [GameM_bind_eq, need, getW, setStackM, GameM_pure_eq]
  cases hfs : w.getStack f with
  | none => exact hE
  | some fs =>
    simp only []
    have hfraw : w.stackStore f = some fs := stackStore_of_getStack hfs
    have hndf : fs.cards.Nodup := hE.2 f fs hfraw
    cases hcont : fs.contains_card card_id with
    | false => simpa using hE
    | true =>
      simp only [Bool.not_true, Bool.false_eq_true, if_false]
      unfold StackContainer.get_card_index
      cases hidx : fs.cards.indexOf? card_id with
      | none => exact hE
      | some idx =>
        simp only [GameM_bind_eq, need, getW, setStackM, GameM_pure_eq]
        cases hts : w.getStack t with
        | none => exact hE
        | some ts =>
          simp only [GameM_bind_eq, need, getW, setStackM, GameM_pure_eq]
          cases hcan : can_move_stack_check w ((fs.get_all_cards).drop idx)
              fs.stack_type ts t with
          | false => simpa using hE
          | true =>
            simp only [Bool.not_true, Bool.false_eq_true, if_false, GameM_bind_eq,
              need, getW, setStackM, GameM_pure_eq, hfs, foldl_remove_card]
            set from_cards := (fs.get_all_cards).drop idx with hfc
            have hsubfc : from_cards.Sublist fs.cards := by
              rw [hfc]
              exact List.drop_sublist idx fs.cards
            have hndfc : from_cards.Nodup := hndf.sublist hsubfc
            set w1 := w.setStack f { fs with cards := fs.cards.diff from_cards } with hw1
            have hE1 : ExclusiveMembership w1 := by
              apply exclusive_setStack w f _ hE
              · exact hndf.sublist (List.diff_sublist _ _)
              · intro c hc
                simp only [] at hc
                exact Or.inl ⟨fs, hfraw, (List.diff_sublist _ _).subset hc⟩
            have hN1 : ∀ c ∈ from_cards, NotInAnyStack w1 c := by
              intro c hc s k h hck
              rw [hw1, stackStore_setStack] at h
              unfold store_set at h
              by_cases e : s = f
              · rw [if_pos e] at h
                cases h
                simp only [] at hck
                exact ((hndf.mem_diff_iff).1 hck).2 hc
              · rw [if_neg e] at h
                exact e (hE.1 s f k fs c h hfraw hck (hsubfc.subset hc))
            cases htt2 : w1.getTransform t with
            | none => exact hE1
            | some tt =>
              simp only [GameM_bind_eq, need, getW, setStackM, GameM_pure_eq]
              cases hts2 : w1.getStack t with
              | none => exact hE1
              | some ts2 =>
                simp only [GameM_bind_eq, need, getW, setStackM, GameM_pure_eq]
                cases hloop : position_cards_loop tt.position.x tt.position.y
                    ts2.card_count ts.stack_type from_cards 0 w1 with
                | mk res w2 =>
                  have hsh := position_cards_loop_shape tt.position.x tt.position.y
                    ts2.card_count ts.stack_type from_cards 0 w1
                  rw [hloop] at hsh
                  have hE2 : ExclusiveMembership w2 := exclusive_congr hsh.1 hE1
                  cases res with
                  | error e => exact hE2
                  | ok u =>
                    simp only []
                    cases hts3 : w2.getStack t with
                    | none => exact hE2
                    | some ts3 =>
                      simp only [GameM_bind_eq, need, getW, setStackM, GameM_pure_eq,
                        foldl_add_card]
                      set w3 := w2.setStack t { ts3 with cards := ts3.cards ++ from_cards }
                        with hw3
                      have hE3 : ExclusiveMembership w3 := by
                        apply exclusive_add_batch w2 t ts3 from_cards hE2
                          (stackStore_of_getStack hts3)
                        · intro c hc
                          exact notInAnyStack_congr hsh.1 (hN1 c hc)
                        · exact hndfc
                      cases hflip : flip_top_if_tableau f w3 with
                      | mk res4 w4 =>
                        have hsh4 := flip_top_shape f w3
                        rw [hflip] at hsh4
                        have hE4 : ExclusiveMembership w4 := exclusive_congr hsh4.1 hE3
                        cases res4 with
                        | ok u4 => exact hE4
                        | error e4 => exact hE4

end Game

namespace Game

theorem try_move_preserves_exclusive (card_id from_id : EntityId) :
    ∀ (fnds : List EntityId) (w : World), ExclusiveMembership w →
      ExclusiveMembership ((try_move_to_foundations card_id from_id fnds w).2)
  | [], w, hE => hE
  | fnd :: rest, w, hE => by
    unfold try_move_to_foundations
    simp only [GameM_bind_eq, getW, GameM_pure_eq]
    cases hcan : can_move_to_foundation w card_id fnd with
    | false =>
      simp only [Bool.false_eq_true, if_false]
      exact try_move_preserves_exclusive card_id from_id rest w hE
    | true =>
      simp only [if_true]
      rw [GameM_bind_eq]
      cases hmv : move_card card_id from_id fnd w with
      | mk res w2 =>
        have hp := move_card_preserves_exclusive card_id from_id fnd w hE
        rw [hmv] at hp
        cases res with
        | ok b => simpa using hp
        | error e => simpa using hp

theorem auto_tableaus_preserves_exclusive (fnds : List EntityId) :
    ∀ (tabs : List EntityId) (moved : Bool) (w : World), ExclusiveMembership w →
      ExclusiveMembership ((auto_complete_tableaus fnds tabs moved w).2)
  | [], moved, w, hE => hE
  | tab :: rest, moved, w, hE => by
    unfold auto_complete_tableaus
    simp only [GameM_bind_eq, getW, GameM_pure_eq]
    cases htab : w.getStack tab with
    | none => exact auto_tableaus_preserves_exclusive fnds rest moved w hE
    | some tableau =>
      simp only []
      cases hie : tableau.is_empty with
      | true =>
        simp only [if_true]
        exact auto_tableaus_preserves_exclusive fnds rest moved w hE
      | false =>
        simp only [Bool.false_eq_true, if_false]
        cases htop : tableau.get_top_card with
        | none => exact hE
        | some top =>
          simp only [GameM_bind_eq, getW, GameM_pure_eq]
          cases htm : try_move_to_foundations top tab fnds w with
          | mk res w2 =>
            have hp := try_move_preserves_exclusive top tab fnds w hE
            rw [htm] at hp
            cases res with
            | ok b =>
              exact auto_tableaus_preserves_exclusive fnds rest (moved || b) w2 hp
            | error e => exact hp

theorem auto_waste_preserves_exclusive (fnds : List EntityId) (waste_id : EntityId)
    (w : World) (hE : ExclusiveMembership w) :
    ExclusiveMembership ((auto_complete_waste fnds waste_id w).2) := by
  unfold auto_complete_waste
  simp only [GameM_bind_eq, getW, GameM_pure_eq]
  cases hw : w.getStack waste_id with
  | none => exact hE
  | some waste =>
    simp only []
    cases hie : waste.is_empty with
    | true => simpa using hE
    | false =>
      simp only [Bool.not_false, if_true]
      cases htop : waste.get_top_card with
      | none => exact hE
      | some top => exact try_move_preserves_exclusive top waste_id fnds w hE

theorem auto_complete_preserves_exclusive (tabs fnds : List EntityId)
    (waste_id : EntityId) (w : World) (hE : ExclusiveMembership w) :
    ExclusiveMembership ((auto_complete tabs fnds waste_id w).2) := by
  unfold auto_complete
  simp only [GameM_bind_eq, GameM_pure_eq]
  cases h1 : auto_complete_tableaus fnds tabs false w with
  | mk res1 w1 =>
    have hp1 := auto_tableaus_preserves_exclusive fnds tabs false w hE
    rw [h1] at hp1
    cases res1 with
    | error e => exact hp1
    | ok b1 =>
      simp only []
      cases h2 : auto_complete_waste fnds waste_id w1 with
      | mk res2 w2 =>
        have hp2 := auto_waste_preserves_exclusive fnds waste_id w1 hp1
        rw [h2] at hp2
        cases res2 with
        | error e => exact hp2
        | ok b2 => exact hp2

end Game

namespace Game

theorem deckDisjoint_of_subset {deck deck2 : List EntityId} {w : World}
    (hsub : ∀ c ∈ deck2, c ∈ deck) (hD : DeckDisjoint deck w) : DeckDisjoint deck2 w := by
  intro s k c h hck hcd
  exact hD s k c h hck (hsub c hcd)

theorem deckDisjoint_congr {deck : List EntityId} {w w2 : World}
    (h : w2.stackStore = w.stackStore) (hD : DeckDisjoint deck w) : DeckDisjoint deck w2 := by
  unfold DeckDisjoint at *
  rw [h]
  exact hD

theorem deckDisjoint_setStack {deck : List EntityId} {w : World} {i : EntityId}
    {newk : StackContainer} (hD : DeckDisjoint deck w)
    (hnew : ∀ c ∈ newk.cards, c ∉ deck) : DeckDisjoint deck (w.setStack i newk) := by
  intro s k c h hck hcd
  rw [stackStore_setStack] at h
  unfold store_set at h
  by_cases e : s = i
  · rw [if_pos e] at h
    cases h
    exact hnew c hck hcd
  · rw [if_neg e] at h
    exact hD s k c h hck hcd

theorem notInAnyStack_of_deckDisjoint {deck : List EntityId} {w : World} {c : EntityId}
    (hD : DeckDisjoint deck w) (hc : c ∈ deck) : NotInAnyStack w c := by
  intro s k h hck
  exact hD s k c h hck hc

theorem create_entity_shape (w : World) :
    ((create_entity w).2.stackStore = w.stackStore) ∧
    (w.em.next_entity_id ≤ (create_entity w).2.em.next_entity_id) ∧
    (∀ id, (create_entity w).1 = .ok id → id = w.em.next_entity_id ∧
      (create_entity w).2.em.next_entity_id = w.em.next_entity_id + 1) := by
  unfold create_entity EntityManager.create_entity
  split_ifs with h
  · exact ⟨rfl, le_refl _, by intro id hid; simp at hid⟩
  · refine ⟨rfl, by simp, ?_⟩
    intro id hid
    simp only [Except.ok.injEq] at hid
    subst hid
    exact ⟨rfl, rfl⟩

theorem add_transform_shape (id : EntityId) (t : Transform) (w : World) :
    ((add_transform id t w).2.stackStore = w.stackStore) ∧
    ((add_transform id t w).2.em = w.em) := by
  unfold add_transform
  split_ifs <;> simp [World.setTransform]

theorem add_card_info_shape (id : EntityId) (c : CardInfo) (w : World) :
    ((add_card_info id c w).2.stackStore = w.stackStore) ∧
    ((add_card_info id c w).2.em = w.em) := by
  unfold add_card_info
  split_ifs <;> simp [World.setCardInfo]

theorem add_renderable_shape (id : EntityId) (r : Renderable) (w : World) :
    ((add_renderable id r w).2.stackStore = w.stackStore) ∧
    ((add_renderable id r w).2.em = w.em) := by
  unfold add_renderable
  split_ifs <;> simp

theorem add_draggable_shape (id : EntityId) (d : Draggable) (w : World) :
    ((add_draggable id d w).2.stackStore = w.stackStore) ∧
    ((add_draggable id d w).2.em = w.em) := by
  unfold add_draggable
  split_ifs <;> simp

theorem add_clickable_shape (id : EntityId) (c : Clickable) (w : World) :
    ((add_clickable id c w).2.stackStore = w.stackStore) ∧
    ((add_clickable id c w).2.em = w.em) := by
  unfold add_clickable
  split_ifs <;> simp

theorem flip_card_em (c : EntityId) (w : World) : (flip_card c w).2.em = w.em :=
  (flip_card_shape c w).2.2

/-- `add_stack` leaves the entity registry alone and either rewrites one
stack entry or (dead entity) nothing. -/
theorem add_stack_effect (id : EntityId) (s : StackContainer) (w : World) :
    ((add_stack id s w).2.em = w.em) ∧
    (((add_stack id s w).2.stackStore = store_set w.stackStore id s) ∨
      ((add_stack id s w).2.stackStore = w.stackStore)) := by
  unfold add_stack
  split_ifs <;> simp [World.setStack]

theorem exclusive_add_stack_empty (id : EntityId) (s : StackContainer) (w : World)
    (hcards : s.cards = []) (hE : ExclusiveMembership w) :
    ExclusiveMembership ((add_stack id s w).2) := by
  rcases (add_stack_effect id s w).2 with h | h
  · have : (add_stack id s w).2.stackStore = (w.setStack id s).stackStore := by
      rw [h, stackStore_setStack]
    apply exclusive_congr this
    apply exclusive_setStack w id s hE
    · rw [hcards]; exact List.nodup_nil
    · intro c hc
      rw [hcards] at hc
      simp at hc
  · exact exclusive_congr h hE

theorem deckDisjoint_add_stack_empty {deck : List EntityId} (id : EntityId)
    (s : StackContainer) (w : World) (hcards : s.cards = [])
    (hD : DeckDisjoint deck w) : DeckDisjoint deck ((add_stack id s w).2) := by
  rcases (add_stack_effect id s w).2 with h | h
  · have : (add_stack id s w).2.stackStore = (w.setStack id s).stackStore := by
      rw [h, stackStore_setStack]
    apply deckDisjoint_congr this
    apply deckDisjoint_setStack hD
    intro c hc
    rw [hcards] at hc
    simp at hc
  · exact deckDisjoint_congr h hD

end Game

namespace Game

theorem create_card_spec (suit rank : Nat) (x y : ℚ) (fu : Bool) (z : Int) (w : World) :
    ((create_card suit rank x y fu z w).2.stackStore = w.stackStore) ∧
    (w.em.next_entity_id ≤ (create_card suit rank x y fu z w).2.em.next_entity_id) ∧
    (∀ id, (create_card suit rank x y fu z w).1 = .ok id →
      w.em.next_entity_id ≤ id ∧
      id < (create_card suit rank x y fu z w).2.em.next_entity_id) := by
  unfold create_card
  simp only [GameM_bind_eq]
  cases hce : create_entity w with
  | mk res1 w1 =>
    have hsh1 := create_entity_shape w
    rw [hce] at hsh1
    cases res1 with
    | error e => exact ⟨hsh1.1, hsh1.2.1, by intro id hid; simp at hid⟩
    | ok id =>
      have hs1 : w1.stackStore = w.stackStore := hsh1.1
      obtain ⟨hid, hnext1⟩ := hsh1.2.2 id rfl
      have hn1 : w1.em.next_entity_id = w.em.next_entity_id + 1 := hnext1
      simp only []
      cases h2 : add_transform id ((Transform.new x y).with_z_index z) w1 with
      | mk res2 w2 =>
        have hsh2 := add_transform_shape id ((Transform.new x y).with_z_index z) w1
        rw [h2] at hsh2
        have hs2 : w2.stackStore = w.stackStore := hsh2.1.trans hs1
        have hn2 : w2.em.next_entity_id = w.em.next_entity_id + 1 := by
          rw [hsh2.2]; exact hn1
        cases res2 with
        | error e =>
          exact ⟨hs2, by simp only []; rw [hn2]; exact Nat.le_succ _, by intro id2 hid2; simp at hid2⟩
        | ok u2 =>
          simp only []
          cases h3 : add_card_info id { CardInfo.new suit rank with face_up := fu } w2 with
          | mk res3 w3 =>
            have hsh3 := add_card_info_shape id
              { CardInfo.new suit rank with face_up := fu } w2
            rw [h3] at hsh3
            have hs3 : w3.stackStore = w.stackStore := hsh3.1.trans hs2
            have hn3 : w3.em.next_entity_id = w.em.next_entity_id + 1 := by
              rw [hsh3.2]; exact hn2
            cases res3 with
            | error e =>
              exact ⟨hs3, by simp only []; rw [hn3]; exact Nat.le_succ _, by intro id2 hid2; simp at hid2⟩
            | ok u3 =>
              simp only []
              cases h4 : add_renderable id (Renderable.card CARD_WIDTH CARD_HEIGHT) w3 with
              | mk res4 w4 =>
                have hsh4 := add_renderable_shape id
                  (Renderable.card CARD_WIDTH CARD_HEIGHT) w3
                rw [h4] at hsh4
                have hs4 : w4.stackStore = w.stackStore := hsh4.1.trans hs3
                have hn4 : w4.em.next_entity_id = w.em.next_entity_id + 1 := by
                  rw [hsh4.2]; exact hn3
                cases res4 with
                | error e =>
                  exact ⟨hs4, by simp only []; rw [hn4]; exact Nat.le_succ _, by intro id2 hid2; simp at hid2⟩
                | ok u4 =>
                  cases hfu : fu with
                  | true =>
                    simp only [if_true, GameM_bind_eq]
                    cases h5 : add_draggable id Draggable.new w4 with
                    | mk res5 w5 =>
                      have hsh5 := add_draggable_shape id Draggable.new w4
                      rw [h5] at hsh5
                      have hs5 : w5.stackStore = w.stackStore := hsh5.1.trans hs4
                      have hn5 : w5.em.next_entity_id = w.em.next_entity_id + 1 := by
                        rw [hsh5.2]; exact hn4
                      cases res5 with
                      | error e =>
                        exact ⟨hs5, by simp only []; rw [hn5]; exact Nat.le_succ _,
                          by intro id2 hid2; simp at hid2⟩
                      | ok u5 =>
                        simp only []
                        cases h6 : add_clickable id (Clickable.new .FlipCard) w5 with
                        | mk res6 w6 =>
                          have hsh6 := add_clickable_shape id
                            (Clickable.new .FlipCard) w5
                          rw [h6] at hsh6
                          have hs6 : w6.stackStore = w.stackStore := hsh6.1.trans hs5
                          have hn6 : w6.em.next_entity_id = w.em.next_entity_id + 1 := by
                            rw [hsh6.2]; exact hn5
                          cases res6 with
                          | error e =>
                            exact ⟨hs6, by simp only []; rw [hn6]; exact Nat.le_succ _,
                              by intro id2 hid2; simp at hid2⟩
                          | ok u6 =>
                            simp only []
                            simp only [GameM_pure_eq]
                            refine ⟨hs6, by rw [hn6]; exact Nat.le_succ _, ?_⟩
                            intro id2 hid2
                            simp only [Except.ok.injEq] at hid2
                            subst hid2
                            rw [hn6, hid]
                            exact ⟨Nat.le_refl _, Nat.lt_succ_self _⟩
                  | false =>
                    simp only [Bool.false_eq_true, if_false, GameM_pure_eq,
                      GameM_bind_eq]
                    cases h6 : add_clickable id (Clickable.new .FlipCard) w4 with
                    | mk res6 w6 =>
                      have hsh6 := add_clickable_shape id (Clickable.new .FlipCard) w4
                      rw [h6] at hsh6
                      have hs6 : w6.stackStore = w.stackStore := hsh6.1.trans hs4
                      have hn6 : w6.em.next_entity_id = w.em.next_entity_id + 1 := by
                        rw [hsh6.2]; exact hn4
                      cases res6 with
                      | error e =>
                        exact ⟨hs6, by simp only []; rw [hn6]; exact Nat.le_succ _,
                          by intro id2 hid2; simp at hid2⟩
                      | ok u6 =>
                        refine ⟨?_, ?_, ?_⟩
                        · simpa using hs6
                        · simp only [GameM_pure_eq]
                          rw [hn6]; exact Nat.le_succ _
                        · intro id2 hid2
                          simp only [GameM_pure_eq, Except.ok.injEq] at hid2
                          subst hid2
                          simp only [GameM_pure_eq]
                          rw [hn6, hid]
                          exact ⟨Nat.le_refl _, Nat.lt_succ_self _⟩

end Game

namespace Game

/-- Sequencing preserves the pair "exclusive membership + deck
disjointness" when both halves do, on the success and error paths. -/
theorem inv_bind {α β : Type} (deck : List EntityId) (m : GameM α) (f : α → GameM β)
    (hm : ∀ w, ExclusiveMembership w → DeckDisjoint deck w →
      ExclusiveMembership ((m w).2) ∧ DeckDisjoint deck ((m w).2))
    (hf : ∀ a w, ExclusiveMembership w → DeckDisjoint deck w →
      ExclusiveMembership ((f a w).2) ∧ DeckDisjoint deck ((f a w).2))
    (w : World) (hE : ExclusiveMembership w) (hD : DeckDisjoint deck w) :
    ExclusiveMembership (((m >>= f) w).2) ∧ DeckDisjoint deck (((m >>= f) w).2) := by
  rw [GameM_bind_eq]
  cases hmw : m w with
  | mk res w1 =>
    have h1 := hm w hE hD
    rw [hmw] at h1
    cases res with
    | ok a =>
      simp only []
      exact hf a w1 h1.1 h1.2
    | error e =>
      simp only []
      exact h1

theorem inv_of_shape {α : Type} (deck : List EntityId) (m : GameM α)
    (hsh : ∀ w, ((m w).2).stackStore = w.stackStore)
    (w : World) (hE : ExclusiveMembership w) (hD : DeckDisjoint deck w) :
    ExclusiveMembership ((m w).2) ∧ DeckDisjoint deck ((m w).2) :=
  ⟨exclusive_congr (hsh w) hE, deckDisjoint_congr (hsh w) hD⟩

theorem inv_add_stack (deck : List EntityId) (id : EntityId) (s : StackContainer)
    (hcards : s.cards = []) (w : World) (hE : ExclusiveMembership w)
    (hD : DeckDisjoint deck w) :
    ExclusiveMembership ((add_stack id s w).2) ∧
    DeckDisjoint deck ((add_stack id s w).2) :=
  ⟨exclusive_add_stack_empty id s w hcards hE,
    deckDisjoint_add_stack_empty id s w hcards hD⟩

theorem inv_pure {α : Type} (deck : List EntityId) (a : α) (w : World)
    (hE : ExclusiveMembership w) (hD : DeckDisjoint deck w) :
    ExclusiveMembership (((pure a : GameM α) w).2) ∧
    DeckDisjoint deck (((pure a : GameM α) w).2) :=
  ⟨hE, hD⟩

/-- `create_stock` only adds non-stack components and one empty stack. -/
theorem create_stock_inv (deck cards : List EntityId) (w : World)
    (hE : ExclusiveMembership w) (hD : DeckDisjoint deck w) :
    ExclusiveMembership ((create_stock cards w).2) ∧
    DeckDisjoint deck ((create_stock cards w).2) := by
  unfold create_stock
  refine inv_bind deck _ _ (inv_of_shape deck _ (fun w => (create_entity_shape w).1)) ?_ w hE hD
  intro stock_id
  refine inv_bind deck _ _ (inv_of_shape deck _ (fun w => (add_transform_shape stock_id _ w).1)) ?_
  intro u1
  refine inv_bind deck _ _ (fun w hE hD => inv_add_stack deck stock_id _ rfl w hE hD) ?_
  intro u2
  refine inv_bind deck _ _ (inv_of_shape deck _ (fun w => (add_clickable_shape stock_id _ w).1)) ?_
  intro u3
  exact inv_pure deck stock_id

/-- `create_waste` only adds non-stack components and one empty stack. -/
theorem create_waste_inv (deck : List EntityId) (w : World)
    (hE : ExclusiveMembership w) (hD : DeckDisjoint deck w) :
    ExclusiveMembership ((create_waste w).2) ∧
    DeckDisjoint deck ((create_waste w).2) := by
  unfold create_waste
  refine inv_bind deck _ _ (inv_of_shape deck _ (fun w => (create_entity_shape w).1)) ?_ w hE hD
  intro waste_id
  refine inv_bind deck _ _ (inv_of_shape deck _ (fun w => (add_transform_shape waste_id _ w).1)) ?_
  intro u1
  refine inv_bind deck _ _ (fun w hE hD => inv_add_stack deck waste_id _ rfl w hE hD) ?_
  intro u2
  refine inv_bind deck _ _ (inv_of_shape deck _ (fun w => (add_clickable_shape waste_id _ w).1)) ?_
  intro u3
  exact inv_pure deck waste_id

/-- Each tableau column is created with an empty stack. -/
theorem create_tableau_loop_inv (deck : List EntityId) :
    ∀ (is : List Nat) (acc : List EntityId) (w : World),
      ExclusiveMembership w → DeckDisjoint deck w →
      ExclusiveMembership ((create_tableau_loop is acc w).2) ∧
      DeckDisjoint deck ((create_tableau_loop is acc w).2) := by
  intro is
  induction is with
  | nil =>
    intro acc w hE hD
    exact inv_pure deck acc w hE hD
  | cons i rest ih =>
    intro acc w hE hD
    simp only [create_tableau_loop]
    refine inv_bind deck _ _ (inv_of_shape deck _ (fun w => (create_entity_shape w).1)) ?_ w hE hD
    intro tid
    refine inv_bind deck _ _ (inv_of_shape deck _ (fun w => (add_transform_shape tid _ w).1)) ?_
    intro u1
    refine inv_bind deck _ _ (fun w hE hD => inv_add_stack deck tid _ rfl w hE hD) ?_
    intro u2
    refine inv_bind deck _ _ (inv_of_shape deck _ (fun w => (add_clickable_shape tid _ w).1)) ?_
    intro u3
    exact ih (acc ++ [tid])

/-- Each foundation is created with an empty stack. -/
theorem create_foundations_loop_inv (deck : List EntityId) :
    ∀ (is : List Nat) (acc : List EntityId) (w : World),
      ExclusiveMembership w → DeckDisjoint deck w →
      ExclusiveMembership ((create_foundations_loop is acc w).2) ∧
      DeckDisjoint deck ((create_foundations_loop is acc w).2) := by
  intro is
  induction is with
  | nil =>
    intro acc w hE hD
    exact inv_pure deck acc w hE hD
  | cons i rest ih =>
    intro acc w hE hD
    simp only [create_foundations_loop]
    refine inv_bind deck _ _ (inv_of_shape deck _ (fun w => (create_entity_shape w).1)) ?_ w hE hD
    intro fid
    refine inv_bind deck _ _ (inv_of_shape deck _ (fun w => (add_transform_shape fid _ w).1)) ?_
    intro u1
    refine inv_bind deck _ _ (fun w hE hD => inv_add_stack deck fid _ rfl w hE hD) ?_
    intro u2
    refine inv_bind deck _ _ (inv_of_shape deck _ (fun w => (add_clickable_shape fid _ w).1)) ?_
    intro u3
    exact ih (acc ++ [fid])

end Game

namespace Game

/-- `create_deck`'s loop never touches stacks, never lowers the id
counter, and on success extends the accumulator with fresh,
duplicate-free card ids drawn from the counter range it consumed. -/
theorem create_deck_loop_spec (x y : ℚ) :
    ∀ (pairs : List (Nat × Nat)) (acc : List EntityId) (w : World),
      ((create_deck_loop x y pairs acc w).2.stackStore = w.stackStore) ∧
      (w.em.next_entity_id ≤ (create_deck_loop x y pairs acc w).2.em.next_entity_id) ∧
      (∀ out, (create_deck_loop x y pairs acc w).1 = .ok out →
        ∃ nw, out = acc ++ nw ∧ nw.Nodup ∧
          ∀ c ∈ nw, w.em.next_entity_id ≤ c ∧
            c < (create_deck_loop x y pairs acc w).2.em.next_entity_id) := by
  intro pairs
  induction pairs with
  | nil =>
    intro acc w
    refine ⟨rfl, le_refl _, ?_⟩
    intro out hout
    simp only [create_deck_loop, GameM_pure_eq, Except.ok.injEq] at hout
    exact ⟨[], by simp [← hout], List.nodup_nil, by simp⟩
  | cons p rest ih =>
    intro acc w
    obtain ⟨s, r⟩ := p
    simp only [create_deck_loop, GameM_bind_eq]
    cases hcc : create_card s r x y false ((s * 13 + r : Nat) : Int) w with
    | mk res1 w1 =>
      have hsp := create_card_spec s r x y false ((s * 13 + r : Nat) : Int) w
      rw [hcc] at hsp
      cases res1 with
      | error e =>
        simp only []
        exact ⟨hsp.1, hsp.2.1, by intro out hout; simp at hout⟩
      | ok id =>
        simp only []
        obtain ⟨hidlo, hidhi⟩ := hsp.2.2 id rfl
        obtain ⟨ihs, ihn, ihok⟩ := ih (acc ++ [id]) w1
        refine ⟨ihs.trans hsp.1, le_trans hsp.2.1 ihn, ?_⟩
        intro out hout
        obtain ⟨nw1, hout1, hnd1, hb1⟩ := ihok out hout
        refine ⟨id :: nw1, by simp [hout1], ?_, ?_⟩
        · refine List.nodup_cons.mpr ⟨?_, hnd1⟩
          intro hidmem
          exact absurd (lt_of_lt_of_le hidhi (hb1 id hidmem).1) (lt_irrefl _)
        · intro c hc
          rcases List.mem_cons.mp hc with hc | hc
          · subst hc
            exact ⟨hidlo, lt_of_lt_of_le hidhi ihn⟩
          · obtain ⟨h1, h2⟩ := hb1 c hc
            exact ⟨le_trans hsp.2.1 h1, h2⟩

end Game

namespace Game

/-- Dealing one card off the end of the deck extends the taken suffix. -/
theorem deal_rest_step {deck out1 acc out2 : List EntityId} {card_id : EntityId}
    {rest1 : List EntityId} (hgl : deck.getLast? = some card_id)
    (hd1 : deck.dropLast = out1 ++ rest1)
    (ha1 : out2 = (acc ++ [card_id]) ++ rest1.reverse) :
    ∃ tk, deck = out1 ++ tk ∧ out2 = acc ++ tk.reverse := by
  refine ⟨rest1 ++ [card_id], ?_, ?_⟩
  · have hdk : deck.dropLast ++ [card_id] = deck :=
      List.dropLast_append_getLast? card_id hgl
    rw [← hdk, hd1, List.append_assoc]
  · simp [ha1, List.reverse_append]

/-- The column-dealing loop never touches stacks, and on success the
cards it collected are exactly the suffix it removed from the deck,
reversed (the deck is popped from its end). -/
theorem deal_column_loop_shape (bx cy : ℚ) (nc : Nat) :
    ∀ (rem j : Nat) (deck acc : List EntityId) (w : World),
      ((deal_column_loop bx cy nc j rem deck acc w).2.stackStore = w.stackStore) ∧
      (∀ out, (deal_column_loop bx cy nc j rem deck acc w).1 = .ok out →
        ∃ tk, deck = out.1 ++ tk ∧ out.2 = acc ++ tk.reverse) := by
  intro rem
  induction rem with
  | zero =>
    intro j deck acc w
    refine ⟨rfl, ?_⟩
    intro out hout
    simp only [deal_column_loop, GameM_pure_eq, Except.ok.injEq] at hout
    cases hout
    exact ⟨[], by simp, by simp⟩
  | succ rem ih =>
    intro j deck acc w
    simp only [deal_column_loop]
    cases hgl : deck.getLast? with
    | none =>
      simp only []
      refine ⟨rfl, ?_⟩
      intro out hout
      simp only [GameM_pure_eq, Except.ok.injEq] at hout
      cases hout
      exact ⟨[], by simp, by simp⟩
    | some card_id =>
      simp only [GameM_bind_eq]
      cases hscp : set_card_position card_id bx (cy + (j : ℚ) * STACK_OFFSET_Y) (j : Int) w with
      | mk res1 w1 =>
        have hsp1 := (set_card_position_shape card_id bx (cy + (j : ℚ) * STACK_OFFSET_Y)
          (j : Int) w).1
        rw [hscp] at hsp1
        cases res1 with
        | error e =>
          exact ⟨hsp1, by intro out hout; simp at hout⟩
        | ok u1 =>
          simp only []
          cases hj : (j == nc - 1) with
          | false =>
            simp only [Bool.false_eq_true, if_false, GameM_pure_eq]
            obtain ⟨ihs, ihok⟩ := ih (j + 1) deck.dropLast (acc ++ [card_id]) w1
            refine ⟨ihs.trans hsp1, ?_⟩
            intro out hout
            obtain ⟨rest1, hd1, ha1⟩ := ihok out hout
            exact deal_rest_step hgl hd1 ha1
          | true =>
            simp only [if_true, GameM_bind_eq]
            cases hfc : flip_card card_id w1 with
            | mk res2 w2 =>
              have hsp2 := (flip_card_shape card_id w1).1
              rw [hfc] at hsp2
              cases res2 with
              | error e =>
                exact ⟨hsp2.trans hsp1, by intro out hout; simp at hout⟩
              | ok u2 =>
                simp only [getW, GameM_bind_eq]
                cases hci : w2.getCardInfo card_id with
                | none =>
                  simp only [GameM_pure_eq]
                  obtain ⟨ihs, ihok⟩ := ih (j + 1) deck.dropLast (acc ++ [card_id]) w2
                  refine ⟨ihs.trans (hsp2.trans hsp1), ?_⟩
                  intro out hout
                  obtain ⟨rest1, hd1, ha1⟩ := ihok out hout
                  exact deal_rest_step hgl hd1 ha1
                | some info =>
                  simp only []
                  cases hfu : info.face_up with
                  | false =>
                    simp only [Bool.false_eq_true, if_false, GameM_pure_eq]
                    obtain ⟨ihs, ihok⟩ := ih (j + 1) deck.dropLast (acc ++ [card_id]) w2
                    refine ⟨ihs.trans (hsp2.trans hsp1), ?_⟩
                    intro out hout
                    obtain ⟨rest1, hd1, ha1⟩ := ihok out hout
                    exact deal_rest_step hgl hd1 ha1
                  | true =>
                    simp only [if_true, GameM_bind_eq]
                    cases hscd : set_card_draggable card_id true w2 with
                    | mk res3 w3 =>
                      have hsp3 := (set_card_draggable_shape card_id true w2).1
                      rw [hscd] at hsp3
                      cases res3 with
                      | error e =>
                        exact ⟨hsp3.trans (hsp2.trans hsp1),
                          by intro out hout; simp at hout⟩
                      | ok u3 =>
                        simp only []
                        obtain ⟨ihs, ihok⟩ :=
                          ih (j + 1) deck.dropLast (acc ++ [card_id]) w3
                        refine ⟨ihs.trans (hsp3.trans (hsp2.trans hsp1)), ?_⟩
                        intro out hout
                        obtain ⟨rest1, hd1, ha1⟩ := ihok out hout
                        exact deal_rest_step hgl hd1 ha1

end Game

namespace Game

/-- Dealing the columns preserves exclusivity; the leftover deck is
duplicate-free and still disjoint from every stored stack. -/
theorem deal_columns_inv :
    ∀ (cols : List (Nat × EntityId)) (deck : List EntityId) (w : World),
      ExclusiveMembership w → DeckDisjoint deck w → deck.Nodup →
      ExclusiveMembership ((deal_columns cols deck w).2) ∧
      (∀ out, (deal_columns cols deck w).1 = .ok out →
        out.Nodup ∧ DeckDisjoint out ((deal_columns cols deck w).2)) := by
  intro cols
  induction cols with
  | nil =>
    intro deck w hE hD hnd
    refine ⟨hE, ?_⟩
    intro out hout
    simp only [deal_columns, GameM_pure_eq, Except.ok.injEq] at hout
    cases hout
    exact ⟨hnd, hD⟩
  | cons p cs ih =>
    intro deck w hE hD hnd
    obtain ⟨i, tid⟩ := p
    simp only [deal_columns, GameM_bind_eq, need]
    cases hgt : w.getTransform tid with
    | none =>
      simp only []
      exact ⟨hE, by intro out hout; simp at hout⟩
    | some t =>
      simp only []
      cases hdl : deal_column_loop t.position.x t.position.y (i + 1) 0 (i + 1) deck [] w with
      | mk resd wd =>
        have hsh := deal_column_loop_shape t.position.x t.position.y (i + 1) (i + 1) 0 deck [] w
        rw [hdl] at hsh
        have hsd : wd.stackStore = w.stackStore := hsh.1
        have hE1 : ExclusiveMembership wd := exclusive_congr hsd hE
        have hD1 : DeckDisjoint deck wd := deckDisjoint_congr hsd hD
        cases resd with
        | error e =>
          simp only []
          exact ⟨hE1, by intro out hout; simp at hout⟩
        | ok out0 =>
          simp only []
          obtain ⟨tk, hdeck, hacc⟩ := hsh.2 out0 rfl
          have hacc2 : out0.2 = tk.reverse := by simpa using hacc
          have hnd2 : out0.1.Nodup ∧ tk.Nodup ∧ out0.1.Disjoint tk := by
            rw [hdeck] at hnd
            exact List.nodup_append.mp hnd
          have hsub1 : ∀ c ∈ out0.1, c ∈ deck := by
            intro c hc
            rw [hdeck]
            exact List.mem_append_left _ hc
          have hsubtk : ∀ c ∈ tk, c ∈ deck := by
            intro c hc
            rw [hdeck]
            exact List.mem_append_right _ hc
          have hD1' : DeckDisjoint out0.1 wd := deckDisjoint_of_subset hsub1 hD1
          simp only [modify_stack]
          cases hst : wd.getStack tid with
          | none =>
            simp only []
            exact ih out0.1 wd hE1 hD1' hnd2.1
          | some tab =>
            simp only []
            rw [foldl_add_card]
            have htraw : wd.stackStore tid = some tab := stackStore_of_getStack hst
            have hE2 : ExclusiveMembership
                (wd.setStack tid { tab with cards := tab.cards ++ out0.2 }) := by
              apply exclusive_add_batch wd tid tab out0.2 hE1 htraw
              · intro c hc
                apply notInAnyStack_of_deckDisjoint hD1
                rw [hacc2] at hc
                exact hsubtk c (List.mem_reverse.mp hc)
              · rw [hacc2]
                exact List.nodup_reverse.mpr hnd2.2.1
            have hD2 : DeckDisjoint out0.1
                (wd.setStack tid { tab with cards := tab.cards ++ out0.2 }) := by
              apply deckDisjoint_setStack hD1'
              intro c hc
              simp only [List.mem_append] at hc
              rcases hc with hc | hc
              · intro hcd
                exact hD1 tid tab c htraw hc (hsub1 c hcd)
              · rw [hacc2] at hc
                intro hcd
                exact hnd2.2.2 hcd (List.mem_reverse.mp hc)
            exact ih out0.1 _ hE2 hD2 hnd2.1

/-- Refilling the stock appends the leftover deck (fresh, disjoint,
duplicate-free ids) to the stock's sequence. -/
theorem add_cards_to_stock_exclusive (stock_id : EntityId) (cards : List EntityId)
    (w : World) (hE : ExclusiveMembership w) (hD : DeckDisjoint cards w)
    (hnd : cards.Nodup) :
    ExclusiveMembership ((add_cards_to_stock stock_id cards w).2) := by
  unfold add_cards_to_stock
  simp only [GameM_bind_eq, need]
  cases hgt : w.getTransform stock_id with
  | none => exact hE
  | some t =>
    simp only []
    cases hlq : stock_cards_loop t.position.x t.position.y cards 0 w with
    | mk resl wl =>
      have hshl := (stock_cards_loop_shape t.position.x t.position.y cards 0 w).1
      rw [hlq] at hshl
      cases resl with
      | error e => exact exclusive_congr hshl hE
      | ok u =>
        simp only [modify_stack]
        cases hst : wl.getStack stock_id with
        | none =>
          simp only []
          exact exclusive_congr hshl hE
        | some stock =>
          simp only []
          rw [foldl_add_card]
          exact exclusive_add_batch wl stock_id stock cards
            (exclusive_congr hshl hE) (stackStore_of_getStack hst)
            (fun c hc => notInAnyStack_of_deckDisjoint (deckDisjoint_congr hshl hD) hc)
            hnd

end Game

namespace Game

/-- Board setup preserves exclusive stack membership: the 52 created
cards are fresh ids (disjoint from every pre-existing stack, assuming
stack members are already-issued ids), shuffling permutes them, the
deal distributes distinct ids, and the stock refill appends the
leftover deck. -/
theorem setup_board_exclusive (shuffle : List EntityId → List EntityId) (w : World)
    (hE : ExclusiveMembership w) (hR : StackRefsIssued w)
    (hsh : ∀ l : List EntityId, (shuffle l).Perm l) :
    ExclusiveMembership ((setup_solitaire_board shuffle w).2) := by
  unfold setup_solitaire_board
  simp only [GameM_bind_eq]
  cases hdk : create_deck STOCK_X STOCK_Y w with
  | mk res0 wA =>
    have hds := create_deck_loop_spec STOCK_X STOCK_Y create_deck_pairs [] w
    have hdk' : create_deck_loop STOCK_X STOCK_Y create_deck_pairs [] w = (res0, wA) := hdk
    rw [hdk'] at hds
    have hsA : wA.stackStore = w.stackStore := hds.1
    have hEA : ExclusiveMembership wA := exclusive_congr hsA hE
    cases res0 with
    | error e => exact hEA
    | ok deck0 =>
      simp only []
      obtain ⟨nw, hd0, hnd0, hb0⟩ := hds.2.2 deck0 rfl
      have hd0' : deck0 = nw := by simpa using hd0
      have hnddk : (shuffle deck0).Nodup :=
        ((hsh deck0).nodup_iff).mpr (by rw [hd0']; exact hnd0)
      have hDD : DeckDisjoint (shuffle deck0) wA := by
        intro s k c hk hck hcd
        have hcd0 : c ∈ deck0 := ((hsh deck0).mem_iff).mp hcd
        have hlo : w.em.next_entity_id ≤ c := (hb0 c (by rw [← hd0']; exact hcd0)).1
        have hk0 : w.stackStore s = some k := by rw [← hsA]; exact hk
        have hhi : c < w.em.next_entity_id := hR s k c hk0 hck
        exact absurd (lt_of_lt_of_le hhi hlo) (lt_irrefl _)
      cases hcs : create_stock (shuffle deck0) wA with
      | mk res1 wB =>
        have hinvB := create_stock_inv (shuffle deck0) (shuffle deck0) wA hEA hDD
        rw [hcs] at hinvB
        cases res1 with
        | error e => exact hinvB.1
        | ok stock_id =>
          simp only []
          cases hcw : create_waste wB with
          | mk res2 wC =>
            have hinvC := create_waste_inv (shuffle deck0) wB hinvB.1 hinvB.2
            rw [hcw] at hinvC
            cases res2 with
            | error e => exact hinvC.1
            | ok wid =>
              simp only []
              cases hct : create_tableau wC with
              | mk res3 wD =>
                have hct' : create_tableau_loop (List.range 7) [] wC = (res3, wD) := hct
                have hinvD := create_tableau_loop_inv (shuffle deck0) (List.range 7) []
                  wC hinvC.1 hinvC.2
                rw [hct'] at hinvD
                cases res3 with
                | error e => exact hinvD.1
                | ok tabs =>
                  simp only []
                  cases hdc : deal_cards_to_tableau (shuffle deck0) tabs wD with
                  | mk res4 wE =>
                    have hdc' : deal_columns tabs.enum (shuffle deck0) wD = (res4, wE) := hdc
                    have hinvE := deal_columns_inv tabs.enum (shuffle deck0) wD
                      hinvD.1 hinvD.2 hnddk
                    rw [hdc'] at hinvE
                    cases res4 with
                    | error e => exact hinvE.1
                    | ok deck2 =>
                      simp only []
                      obtain ⟨hnd2, hDd2⟩ := hinvE.2 deck2 rfl
                      cases hcf : create_foundations wE with
                      | mk res5 wF =>
                        have hcf' : create_foundations_loop (List.range 4) [] wE
                            = (res5, wF) := hcf
                        have hinvF := create_foundations_loop_inv deck2 (List.range 4) []
                          wE hinvE.1 hDd2
                        rw [hcf'] at hinvF
                        cases res5 with
                        | error e => exact hinvF.1
                        | ok fnds =>
                          simp only []
                          cases hac : add_cards_to_stock stock_id deck2 wF with
                          | mk res6 wG =>
                            have hEG := add_cards_to_stock_exclusive stock_id deck2 wF
                              hinvF.1 hinvF.2 hnd2
                            rw [hac] at hEG
                            cases res6 with
                            | error e => exact hEG
                            | ok u =>
                              simp only [GameM_pure_eq]
                              exact hEG

end Game

namespace Game

/-- **C5.** Exclusive stack membership — every card id occurring in the
cards sequence of at most one stored `StackContainer`, and at most once
within that sequence — is an invariant preserved by every rule-engine
operation: board setup (for any permuting shuffle, provided every stack
member of the starting state is an already-issued entity id),
`draw_from_stock`, `reset_stock_from_waste`, `move_card`,
`move_card_stack`, and `auto_complete`. -/
theorem exclusive_membership_invariant
    (w : World) (card_id f t stock_id waste_id : EntityId)
    (tabs fnds : List EntityId) (shuffle : List EntityId → List EntityId)
    (hE : ExclusiveMembership w) (hR : StackRefsIssued w)
    (hsh : ∀ l : List EntityId, (shuffle l).Perm l) :
    ExclusiveMembership ((setup_solitaire_board shuffle w).2) ∧
    ExclusiveMembership ((draw_from_stock stock_id waste_id w).2) ∧
    ExclusiveMembership ((reset_stock_from_waste stock_id waste_id w).2) ∧
    ExclusiveMembership ((move_card card_id f t w).2) ∧
    ExclusiveMembership ((move_card_stack card_id f t w).2) ∧
    ExclusiveMembership ((auto_complete tabs fnds waste_id w).2) :=
  ⟨setup_board_exclusive shuffle w hE hR hsh,
   draw_preserves_exclusive stock_id waste_id w hE,
   reset_preserves_exclusive stock_id waste_id w hE,
   move_card_preserves_exclusive card_id f t w hE,
   move_card_stack_preserves_exclusive card_id f t w hE,
   auto_complete_preserves_exclusive tabs fnds waste_id w hE⟩

/-- The invariant theorem instantiated at the concrete two-stack world
`wInv` (stock holding card 2, empty waste), with the identity shuffle. -/
theorem exclusive_membership_invariant_witness :
    ExclusiveMembership ((setup_solitaire_board id wInv).2) ∧
    ExclusiveMembership ((draw_from_stock 0 1 wInv).2) ∧
    ExclusiveMembership ((reset_stock_from_waste 0 1 wInv).2) ∧
    ExclusiveMembership ((move_card 2 0 1 wInv).2) ∧
    ExclusiveMembership ((move_card_stack 2 0 1 wInv).2) ∧
    ExclusiveMembership ((auto_complete [0] [1] 1 wInv).2) := by
  have hE : ExclusiveMembership wInv := by
    constructor
    · intro s1 s2 k1 k2 c h1 h2 hc1 hc2
      simp only [wInv] at h1 h2
      by_cases e1 : s1 = 0
      · by_cases e2 : s2 = 0
        · rw [e1, e2]
        · exfalso
          rw [if_neg e2] at h2
          by_cases e2b : s2 = 1
          · rw [if_pos e2b] at h2
            cases h2
            simp at hc2
          · rw [if_neg e2b] at h2
            exact Option.noConfusion h2
      · exfalso
        rw [if_neg e1] at h1
        by_cases e1b : s1 = 1
        · rw [if_pos e1b] at h1
          cases h1
          simp at hc1
        · rw [if_neg e1b] at h1
          exact Option.noConfusion h1
    · intro s k h
      simp only [wInv] at h
      by_cases e : s = 0
      · rw [if_pos e] at h
        cases h
        decide
      · rw [if_neg e] at h
        by_cases e2 : s = 1
        · rw [if_pos e2] at h
          cases h
          decide
        · rw [if_neg e2] at h
          exact Option.noConfusion h
  have hR : StackRefsIssued wInv := by
    intro s k c h hc
    have hn : wInv.em.next_entity_id = 3 := rfl
    rw [hn]
    simp only [wInv] at h
    by_cases e : s = 0
    · rw [if_pos e] at h
      cases h
      simp at hc
      subst hc
      decide
    · rw [if_neg e] at h
      by_cases e2 : s = 1
      · rw [if_pos e2] at h
        cases h
        simp at hc
      · rw [if_neg e2] at h
        exact Option.noConfusion h
  exact exclusive_membership_invariant wInv 2 0 1 0 1 [0] [1] id hE hR
    (fun l => List.Perm.refl l)

end Game
